import Mathlib

/-!
Verification of the sync notifier (`syncapi/sync/notifier.go`).

The notifier bridges event producers to long-polling sync clients: it keeps a
monotonic composite streaming token, a membership index
(`roomIDToJoinedUsers`), and a registry of per-(user, device) streams
(`userDeviceStreams`), and on each ingress call advances the token and
broadcasts it to the relevant streams.

Shallow embedding conventions:
* Go maps become association lists over `String` keys (`alistLookup`,
  `alistInsert`, `updAt`); Go map insertion on an existing key replaces the
  value in place.
* `userIDSet` (Go `map[string]bool`) becomes a duplicate-free `List String`.
* Wall-clock time (`time.Now()`) becomes an explicit `now : Int` argument,
  measured in seconds; `time.Minute` is `60` and five minutes is `300`.
* Pointer identity of a `*UserDeviceStream` is modelled by a tag `sid`
  allocated from a counter `nextSid` in the notifier state.
* The `Broadcast` calls performed by an ingress operation are recorded in an
  explicit trace of `Wake` events, so "which streams were woken with which
  token" is observable.
* Logging is not modelled, except that `OnNewEvent` reports whether the
  "caller supplied no user to wake up" warning branch was taken (`warned`).
-/

/-- Modelled from the spec: the streaming token type `types.StreamingToken`
is not under `src/`.  Per the spec (data model and section 4.1) it is a record
of named non-negative integer positions, at minimum the dimensions `pdu`,
`sendToDevice` and `keyChange`. -/
structure StreamingToken where
  pdu : Nat
  sendToDevice : Nat
  keyChange : Nat
  deriving DecidableEq, Repr

/-- Modelled from the spec: `types.StreamingToken.WithUpdates` is not under
`src/`.  Per the spec (section 4.1), merge is the per-dimension maximum; a
zero on either side is "no contribution", which on `Nat` is exactly what
`max` gives. -/
def StreamingToken.WithUpdates (t other : StreamingToken) : StreamingToken :=
  ⟨max t.pdu other.pdu, max t.sendToDevice other.sendToDevice,
   max t.keyChange other.keyChange⟩

/-- Per-dimension order on streaming tokens. -/
def StreamingToken.dimLE (a b : StreamingToken) : Prop :=
  a.pdu ≤ b.pdu ∧ a.sendToDevice ≤ b.sendToDevice ∧ a.keyChange ≤ b.keyChange

instance : DecidablePred fun p : StreamingToken × StreamingToken =>
    StreamingToken.dimLE p.1 p.2 := fun _ => by
  unfold StreamingToken.dimLE; infer_instance

instance (a b : StreamingToken) : Decidable (StreamingToken.dimLE a b) := by
  unfold StreamingToken.dimLE; infer_instance

/-- Modelled from the spec: token `other` makes forward progress over `t`
when it is newer on some dimension (section 4.2). -/
def StreamingToken.newerThan (other t : StreamingToken) : Prop :=
  t.pdu < other.pdu ∨ t.sendToDevice < other.sendToDevice ∨
    t.keyChange < other.keyChange

instance (a b : StreamingToken) : Decidable (StreamingToken.newerThan a b) := by
  unfold StreamingToken.newerThan; infer_instance

/-- The fields of a `gomatrixserverlib.HeaderedEvent` that `OnNewEvent`
inspects: `RoomID()`, `EventID()`, `Type()`, `StateKey()` and the result of
`Membership()` (`none` models a parse error from `Membership()`). -/
structure HeaderedEvent where
  roomID : String
  eventID : String
  eventType : String
  stateKey : Option String
  membership : Option String
  deriving DecidableEq, Repr

/-- Modelled from the spec: the `UserDeviceStream` type is not under `src/`.
Per the spec (section 3 and 4.2) it holds the last broadcast token, a
monotonic generation counter and `timeOfLastNonEmpty`; its identity is
`(userID, deviceID)`.  The tag `sid` models Go pointer identity. -/
structure UserDeviceStream where
  sid : Nat
  userID : String
  deviceID : String
  pos : StreamingToken
  generation : Nat
  timeOfLastNonEmpty : Int
  deriving DecidableEq, Repr

/-- Modelled from the spec: `NewUserDeviceStream` is not under `src/`.  A
stream is created with the notifier's current position and a fresh idle
timestamp (sections 4.2 and 4.4: a freshly created stream will not be swept
until five minutes of silence have elapsed). -/
def NewUserDeviceStream (sid : Nat) (userID deviceID : String)
    (currPos : StreamingToken) (now : Int) : UserDeviceStream :=
  ⟨sid, userID, deviceID, currPos, 0, now⟩

/-- Modelled from the spec: `UserDeviceStream.Broadcast` is not under `src/`.
Per the spec (section 4.2), broadcast advances the stored token (a no-op when
the new token is not newer on any dimension), bumps the generation counter,
and refreshes `timeOfLastNonEmpty` when the token makes forward progress. -/
def UserDeviceStream.Broadcast (s : UserDeviceStream) (pos : StreamingToken)
    (now : Int) : UserDeviceStream :=
  if pos.newerThan s.pos then
    { s with pos := pos, generation := s.generation + 1,
             timeOfLastNonEmpty := now }
  else
    { s with generation := s.generation + 1 }

/-- Broadcast preserves the identity tag of a stream. -/
theorem UserDeviceStream.Broadcast_sid (s : UserDeviceStream)
    (pos : StreamingToken) (now : Int) : (s.Broadcast pos now).sid = s.sid := by
  unfold UserDeviceStream.Broadcast; split <;> rfl

/-- Lookup in an association list (a Go map). -/
def alistLookup {α : Type} (k : String) : List (String × α) → Option α
  | [] => none
  | (k', v) :: t => if k' = k then some v else alistLookup k t

/-- Insertion in an association list: replace in place when the key is
present (Go map assignment), append otherwise. -/
def alistInsert {α : Type} (k : String) (v : α) :
    List (String × α) → List (String × α)
  | [] => [(k, v)]
  | (k', v') :: t =>
    if k' = k then (k, v) :: t else (k', v') :: alistInsert k v t

/-- Update the value stored at key `k` in place (a write through a Go map
entry or pointer); keys are untouched. -/
def updAt {α : Type} (k : String) (f : α → α) : List (String × α) → List (String × α)
  | [] => []
  | (a, v) :: t =>
    if a = k then (a, f v) :: updAt k f t else (a, v) :: updAt k f t

/-- The Go type `userIDSet` (`map[string]bool`), as a duplicate-free list. -/
abbrev userIDSet := List String

/-- Method `add` of `userIDSet`. -/
def userIDSet.add (s : userIDSet) (str : String) : userIDSet :=
  if str ∈ s then s else s ++ [str]

/-- Method `remove` of `userIDSet`. -/
def userIDSet.remove (s : userIDSet) (str : String) : userIDSet :=
  s.filter (· ≠ str)

/-- Method `values` of `userIDSet`. -/
def userIDSet.values (s : userIDSet) : List String := s

/-- The `Notifier` struct from `notifier.go`: membership index, current
position, the device-stream registry, and the timestamp of the last GC pass.
`nextSid` is the model's allocator of stream identity tags. -/
structure Notifier where
  roomIDToJoinedUsers : List (String × userIDSet)
  currPos : StreamingToken
  userDeviceStreams : List (String × List (String × UserDeviceStream))
  lastCleanUpTime : Int
  nextSid : Nat
  deriving DecidableEq, Repr

/-- One `Broadcast` performed by an ingress call: which device stream was
woken (its registry coordinates and identity tag) and with which token. -/
structure Wake where
  userID : String
  deviceID : String
  sid : Nat
  pos : StreamingToken
  deriving DecidableEq, Repr

/-- The function `NewNotifier`: fresh maps, the given position, and
`lastCleanUpTime` set to the creation instant. -/
def NewNotifier (pos : StreamingToken) (now : Int) : Notifier :=
  { roomIDToJoinedUsers := [], currPos := pos, userDeviceStreams := [],
    lastCleanUpTime := now, nextSid := 0 }

namespace Notifier

/-- Method `CurrentPosition`: the lock-protected read of `currPos`. -/
def CurrentPosition (n : Notifier) : StreamingToken := n.currPos

/-- Method `addJoinedUser`: make the room's set if absent, then `add`. -/
def addJoinedUser (n : Notifier) (roomID userID : String) : Notifier :=
  let s := ((alistLookup roomID n.roomIDToJoinedUsers).getD []).add userID
  { n with roomIDToJoinedUsers := alistInsert roomID s n.roomIDToJoinedUsers }

/-- Method `removeJoinedUser`: make the room's set if absent, then
`remove`. -/
def removeJoinedUser (n : Notifier) (roomID userID : String) : Notifier :=
  let s := ((alistLookup roomID n.roomIDToJoinedUsers).getD []).remove userID
  { n with roomIDToJoinedUsers := alistInsert roomID s n.roomIDToJoinedUsers }

/-- Method `joinedUsers`: `nil` when the room is absent, else `values`. -/
def joinedUsers (n : Notifier) (roomID : String) : List String :=
  match alistLookup roomID n.roomIDToJoinedUsers with
  | none => []
  | some s => s.values

/-- Method `setUsersJoinedToRooms`: the bulk form of `addJoinedUser`. -/
def setUsersJoinedToRooms (n : Notifier)
    (roomIDToUserIDs : List (String × List String)) : Notifier :=
  roomIDToUserIDs.foldl
    (fun acc p => p.2.foldl (fun a u => a.addJoinedUser p.1 u) acc) n

/-- Registry lookup at a `(userID, deviceID)` pair. -/
def lookup2 (u d : String)
    (reg : List (String × List (String × UserDeviceStream))) :
    Option UserDeviceStream :=
  match alistLookup u reg with
  | none => none
  | some tbl => alistLookup d tbl

/-- The per-user step of the GC sweep: drop every stream whose
`timeOfLastNonEmpty` is `Before` `deleteBefore`, and drop the user entry when
its device table becomes empty (the Go loop checks emptiness after each
device, so a table that was already empty on entry is left in place). -/
def sweepUserEntry (deleteBefore : Int)
    (p : String × List (String × UserDeviceStream)) :
    Option (String × List (String × UserDeviceStream)) :=
  let tbl := p.2.filter fun q =>
    decide (¬ q.2.timeOfLastNonEmpty < deleteBefore)
  if tbl.isEmpty ∧ ¬ p.2.isEmpty then none else some (p.1, tbl)

/-- Method `removeEmptyUserStreams`: run at most once per minute (tracked by
`lastCleanUpTime`); a sweep applies `sweepUserEntry` with `deleteBefore`
five minutes before `now` to every user entry. -/
def removeEmptyUserStreams (n : Notifier) (now : Int) : Notifier :=
  if n.lastCleanUpTime + 60 > now then n
  else
    let deleteBefore := now - 300
    let reg := n.userDeviceStreams.filterMap (sweepUserEntry deleteBefore)
    { n with lastCleanUpTime := now, userDeviceStreams := reg }

/-- Method `fetchUserDeviceStream`: retrieve the stream unique to the given
device, creating it (and the user's table) when `makeIfNotExists` is set. -/
def fetchUserDeviceStream (n : Notifier) (userID deviceID : String)
    (makeIfNotExists : Bool) (now : Int) : Option UserDeviceStream × Notifier :=
  match alistLookup userID n.userDeviceStreams with
  | none =>
    if makeIfNotExists then
      let s := NewUserDeviceStream n.nextSid userID deviceID n.currPos now
      let reg := alistInsert userID [(deviceID, s)] n.userDeviceStreams
      (some s, { n with userDeviceStreams := reg, nextSid := n.nextSid + 1 })
    else (none, n)
  | some tbl =>
    match alistLookup deviceID tbl with
    | some s => (some s, n)
    | none =>
      if makeIfNotExists then
        let s := NewUserDeviceStream n.nextSid userID deviceID n.currPos now
        let reg := alistInsert userID (alistInsert deviceID s tbl)
          n.userDeviceStreams
        (some s, { n with userDeviceStreams := reg, nextSid := n.nextSid + 1 })
      else (none, n)

/-- Method `wakeupUsers`: for each user ID, broadcast the new position to
every stream of that user (`fetchUserStreams` returns the empty slice when
the user has no entry). -/
def wakeupUsers (now : Int) (newPos : StreamingToken) :
    List String → Notifier → Notifier × List Wake
  | [], n => (n, [])
  | userID :: rest, n =>
    match alistLookup userID n.userDeviceStreams with
    | none => wakeupUsers now newPos rest n
    | some tbl =>
      let ws := tbl.map fun q => Wake.mk userID q.1 q.2.sid newPos
      let reg := updAt userID
        (fun t => t.map fun q => (q.1, q.2.Broadcast newPos now))
        n.userDeviceStreams
      let n1 := { n with userDeviceStreams := reg }
      let r := wakeupUsers now newPos rest n1
      (r.1, ws ++ r.2)

/-- Method `wakeupUserDevice`: broadcast the new position to the streams of
exactly the named devices of the named user, leaving other device streams
alone (`fetchUserDeviceStream` is called with `makeIfNotExists = false`). -/
def wakeupUserDevice (now : Int) (newPos : StreamingToken) (userID : String) :
    List String → Notifier → Notifier × List Wake
  | [], n => (n, [])
  | deviceID :: rest, n =>
    match (n.fetchUserDeviceStream userID deviceID false now).1 with
    | none => wakeupUserDevice now newPos userID rest n
    | some s =>
      let reg := updAt userID (updAt deviceID (fun s0 => s0.Broadcast newPos now))
        n.userDeviceStreams
      let n1 := { n with userDeviceStreams := reg }
      let r := wakeupUserDevice now newPos userID rest n1
      (r.1, Wake.mk userID deviceID s.sid newPos :: r.2)

/-- The membership-event branch of `OnNewEvent` (source lines 86-109): the
adjusted `usersToNotify` list and the membership-index mutation. -/
def applyMembership (n : Notifier) (ev : HeaderedEvent)
    (usersToNotify : List String) : List String × Notifier :=
  if ev.eventType = "m.room.member" then
    match ev.stateKey with
    | none => (usersToNotify, n)
    | some targetUserID =>
      match ev.membership with
      | none => (usersToNotify, n)
      | some membership =>
        if membership = "invite" then
          (usersToNotify ++ [targetUserID], n)
        else if membership = "join" then
          (usersToNotify ++ [targetUserID],
           n.addJoinedUser ev.roomID targetUserID)
        else if membership = "leave" ∨ membership = "ban" then
          (usersToNotify, n.removeJoinedUser ev.roomID targetUserID)
        else (usersToNotify, n)
  else (usersToNotify, n)

/-- The result of `OnNewEvent`: the new notifier state, the trace of
broadcasts, and whether the no-recipient warning branch was taken. -/
structure EventResult where
  state : Notifier
  wakes : List Wake
  warned : Bool
  deriving DecidableEq, Repr

/-- Method `OnNewEvent`: advance the current position with `posUpdate`, run
the opportunistic GC, then wake streams chosen by the event (with membership
adjustments), else the room ID, else the user IDs, else warn. -/
def OnNewEvent (n : Notifier) (ev : Option HeaderedEvent) (roomID : String)
    (userIDs : List String) (posUpdate : StreamingToken) (now : Int) :
    EventResult :=
  let latestPos := n.currPos.WithUpdates posUpdate
  let n1 := Notifier.removeEmptyUserStreams { n with currPos := latestPos } now
  match ev with
  | some e =>
    let usersToNotify := n1.joinedUsers e.roomID
    let un2 := applyMembership n1 e usersToNotify
    let r := wakeupUsers now latestPos un2.1 un2.2
    ⟨r.1, r.2, false⟩
  | none =>
    if roomID ≠ "" then
      let r := wakeupUsers now latestPos (n1.joinedUsers roomID) n1
      ⟨r.1, r.2, false⟩
    else if userIDs.length > 0 then
      let r := wakeupUsers now latestPos userIDs n1
      ⟨r.1, r.2, false⟩
    else ⟨n1, [], true⟩

/-- Method `OnNewSendToDevice`: advance the current position and wake only
the named devices of the named user. -/
def OnNewSendToDevice (n : Notifier) (userID : String)
    (deviceIDs : List String) (posUpdate : StreamingToken) (now : Int) :
    Notifier × List Wake :=
  let latestPos := n.currPos.WithUpdates posUpdate
  wakeupUserDevice now latestPos userID deviceIDs { n with currPos := latestPos }

/-- Method `OnNewKeyChange`: advance the current position and wake every
device of `wakeUserID`; `keyChangeUserID` is not used for routing. -/
def OnNewKeyChange (n : Notifier) (posUpdate : StreamingToken)
    (wakeUserID keyChangeUserID : String) (now : Int) : Notifier × List Wake :=
  let latestPos := n.currPos.WithUpdates posUpdate
  wakeupUsers now latestPos [wakeUserID] { n with currPos := latestPos }

/-- Method `GetListener`: under the lock, run the GC, then fetch-or-create
the `(userID, deviceID)` stream; the returned listener is bound to that
stream. -/
def GetListener (n : Notifier) (userID deviceID : String) (now : Int) :
    Option UserDeviceStream × Notifier :=
  let n1 := n.removeEmptyUserStreams now
  n1.fetchUserDeviceStream userID deviceID true now

end Notifier

/-- One ingress call, with its wall-clock instant and arguments. -/
inductive IngressCall where
  | newEvent (ev : Option HeaderedEvent) (roomID : String)
      (userIDs : List String) (posUpdate : StreamingToken) (now : Int)
  | newSendToDevice (userID : String) (deviceIDs : List String)
      (posUpdate : StreamingToken) (now : Int)
  | newKeyChange (posUpdate : StreamingToken)
      (wakeUserID keyChangeUserID : String) (now : Int)
  deriving DecidableEq, Repr

/-- The state transition of one ingress call. -/
def applyCall (n : Notifier) : IngressCall → Notifier
  | .newEvent ev roomID userIDs posUpdate now =>
    (n.OnNewEvent ev roomID userIDs posUpdate now).state
  | .newSendToDevice userID deviceIDs posUpdate now =>
    (n.OnNewSendToDevice userID deviceIDs posUpdate now).1
  | .newKeyChange posUpdate wakeUserID keyChangeUserID now =>
    (n.OnNewKeyChange posUpdate wakeUserID keyChangeUserID now).1

/-- The state after a sequence of ingress calls. -/
def runCalls (n : Notifier) (calls : List IngressCall) : Notifier :=
  calls.foldl applyCall n

/-! ### Association-list toolkit -/

/-- Keys are pairwise distinct, the invariant every Go map enjoys. -/
def keysND {α : Type} (l : List (String × α)) : Prop := (l.map Prod.fst).Nodup

instance {α : Type} (l : List (String × α)) : Decidable (keysND l) := by
  unfold keysND; infer_instance

theorem alistLookup_insert {α : Type} (k k' : String) (v : α)
    (l : List (String × α)) :
    alistLookup k (alistInsert k' v l) =
      if k' = k then some v else alistLookup k l := by
  induction l with
  | nil => by_cases h : k' = k <;> simp [alistInsert, alistLookup, h]
  | cons p t ih =>
    obtain ⟨a, b⟩ := p
    by_cases h1 : a = k' <;> by_cases h2 : k' = k <;>
      simp [alistInsert, alistLookup, h1, h2, ih] <;>
      simp_all [alistLookup]

theorem alistLookup_updAt {α : Type} (k k' : String) (f : α → α)
    (l : List (String × α)) :
    alistLookup k (updAt k' f l) =
      if k' = k then (alistLookup k l).map f else alistLookup k l := by
  induction l with
  | nil =>
    simp only [updAt, alistLookup]
    split <;> rfl
  | cons p t ih =>
    obtain ⟨a, b⟩ := p
    by_cases h1 : a = k'
    · by_cases h2 : a = k
      · subst h1; subst h2
        simp [updAt, alistLookup]
      · subst h1
        simp [updAt, alistLookup, h2, ih]
    · by_cases h2 : a = k
      · subst h2
        have hk : ¬ k' = a := fun he => h1 he.symm
        simp [updAt, alistLookup, h1, hk]
      · simp [updAt, alistLookup, h1, h2, ih]

theorem updAt_keys {α : Type} (k : String) (f : α → α)
    (l : List (String × α)) : (updAt k f l).map Prod.fst = l.map Prod.fst := by
  induction l with
  | nil => rfl
  | cons p t ih =>
    obtain ⟨a, b⟩ := p
    by_cases h : a = k <;> simp_all [updAt]

theorem alistLookup_none_iff {α : Type} (k : String) (l : List (String × α)) :
    alistLookup k l = none ↔ k ∉ l.map Prod.fst := by
  induction l with
  | nil => simp [alistLookup]
  | cons p t ih =>
    obtain ⟨a, b⟩ := p
    by_cases h : a = k
    · subst h; simp [alistLookup]
    · have h2 : ¬ k = a := fun he => h he.symm
      simp [alistLookup, h, h2, ih]

theorem alistLookup_mem {α : Type} (k : String) (v : α)
    (l : List (String × α)) (h : alistLookup k l = some v) : (k, v) ∈ l := by
  induction l with
  | nil => simp [alistLookup] at h
  | cons p t ih =>
    obtain ⟨a, b⟩ := p
    by_cases h1 : a = k <;> simp_all [alistLookup]

theorem mem_alistLookup {α : Type} (k : String) (v : α)
    (l : List (String × α)) (hnd : keysND l) (h : (k, v) ∈ l) :
    alistLookup k l = some v := by
  induction l with
  | nil => simp at h
  | cons p t ih =>
    obtain ⟨a, b⟩ := p
    unfold keysND at hnd
    simp only [List.map_cons, List.nodup_cons] at hnd
    rcases List.mem_cons.mp h with h1 | h1
    · injection h1.symm with hk hv
      subst hk; subst hv
      simp [alistLookup]
    · have hak : ¬ a = k := by
        intro he
        subst he
        exact hnd.1 (List.mem_map_of_mem Prod.fst h1)
      simp only [alistLookup, if_neg hak]
      exact ih hnd.2 h1

theorem alistInsert_keys {α : Type} (k : String) (v : α)
    (l : List (String × α)) :
    (alistInsert k v l).map Prod.fst =
      match alistLookup k l with
      | some _ => l.map Prod.fst
      | none => l.map Prod.fst ++ [k] := by
  induction l with
  | nil => simp [alistInsert, alistLookup]
  | cons p t ih =>
    obtain ⟨a, b⟩ := p
    by_cases h : a = k <;> simp_all [alistInsert, alistLookup] <;>
      cases alistLookup k t <;> simp_all

theorem keysND_insert {α : Type} (k : String) (v : α)
    (l : List (String × α)) (h : keysND l) : keysND (alistInsert k v l) := by
  unfold keysND at h ⊢
  rw [alistInsert_keys]
  cases hl : alistLookup k l with
  | some w => exact h
  | none =>
    have hk : k ∉ l.map Prod.fst := (alistLookup_none_iff k l).mp hl
    simp [List.nodup_append, h, hk]

theorem mem_alistInsert {α : Type} (p : String × α) (k : String) (v : α)
    (l : List (String × α)) (h : p ∈ alistInsert k v l) :
    p = (k, v) ∨ p ∈ l := by
  induction l with
  | nil => simp [alistInsert] at h; simp [h]
  | cons q t ih =>
    obtain ⟨a, b⟩ := q
    by_cases h1 : a = k <;> simp_all [alistInsert] <;> tauto

theorem alistLookup_mapSnd {α β : Type} (g : α → β) (k : String)
    (l : List (String × α)) :
    alistLookup k (l.map fun p => (p.1, g p.2)) = (alistLookup k l).map g := by
  induction l with
  | nil => simp [alistLookup]
  | cons p t ih =>
    obtain ⟨a, b⟩ := p
    by_cases h : a = k <;> simp_all [alistLookup]

/-! ### Registry well-formedness and frame lemmas -/

/-- Well-formedness of the device-stream registry: distinct user keys and,
within each user's table, distinct device keys — the invariant the nested Go
maps enjoy by construction. -/
def regWF (reg : List (String × List (String × UserDeviceStream))) : Prop :=
  keysND reg ∧ ∀ p ∈ reg, keysND p.2

instance (reg : List (String × List (String × UserDeviceStream))) :
    Decidable (regWF reg) := by
  unfold regWF; infer_instance

/-- Well-formedness of a notifier state. -/
def Notifier.WF (n : Notifier) : Prop := regWF n.userDeviceStreams

instance (n : Notifier) : Decidable n.WF := by
  unfold Notifier.WF; infer_instance

/-- A wake `w` names a stream that the registry holds at `w`'s coordinates:
the registered stream has identity tag `w.sid`. -/
def streamAt (reg : List (String × List (String × UserDeviceStream)))
    (w : Wake) : Prop :=
  (Notifier.lookup2 w.userID w.deviceID reg).map UserDeviceStream.sid =
    some w.sid

theorem lookup2_eq_bind (u d : String)
    (reg : List (String × List (String × UserDeviceStream))) :
    Notifier.lookup2 u d reg = (alistLookup u reg).bind (alistLookup d) := by
  unfold Notifier.lookup2
  cases alistLookup u reg <;> rfl

theorem fetchUserDeviceStream_false (n : Notifier) (u d : String) (now : Int) :
    n.fetchUserDeviceStream u d false now =
      (Notifier.lookup2 u d n.userDeviceStreams, n) := by
  unfold Notifier.fetchUserDeviceStream
  rw [lookup2_eq_bind]
  cases h : alistLookup u n.userDeviceStreams with
  | none => simp
  | some tbl => cases h2 : alistLookup d tbl <;> simp [h2]

theorem mem_updAt {α : Type} (p : String × α) (k : String) (f : α → α)
    (l : List (String × α)) (h : p ∈ updAt k f l) :
    p ∈ l ∨ ∃ v, (p.1, v) ∈ l ∧ p.2 = f v := by
  induction l with
  | nil => simp [updAt] at h
  | cons q t ih =>
    obtain ⟨a, b⟩ := q
    by_cases ha : a = k
    · rw [updAt, if_pos ha] at h
      rcases List.mem_cons.mp h with h1 | h1
      · subst h1
        exact Or.inr ⟨b, List.mem_cons_self _ _, rfl⟩
      · rcases ih h1 with h2 | ⟨v, hv, he⟩
        · exact Or.inl (List.mem_cons_of_mem _ h2)
        · exact Or.inr ⟨v, List.mem_cons_of_mem _ hv, he⟩
    · rw [updAt, if_neg ha] at h
      rcases List.mem_cons.mp h with h1 | h1
      · exact Or.inl (h1 ▸ List.mem_cons_self _ _)
      · rcases ih h1 with h2 | ⟨v, hv, he⟩
        · exact Or.inl (List.mem_cons_of_mem _ h2)
        · exact Or.inr ⟨v, List.mem_cons_of_mem _ hv, he⟩

theorem mapSnd_keys {α β : Type} (g : α → β) (l : List (String × α)) :
    (l.map fun p => (p.1, g p.2)).map Prod.fst = l.map Prod.fst := by
  induction l with
  | nil => rfl
  | cons p t ih => simp [ih]

theorem keysND_mapSnd {α β : Type} (g : α → β) (l : List (String × α))
    (h : keysND l) : keysND (l.map fun p => (p.1, g p.2)) := by
  unfold keysND at h ⊢
  rw [mapSnd_keys]
  exact h

theorem keysND_updAt {α : Type} (k : String) (f : α → α)
    (l : List (String × α)) (h : keysND l) : keysND (updAt k f l) := by
  unfold keysND at h ⊢
  rw [updAt_keys]
  exact h

theorem regWF_updAt (uid : String)
    (f : List (String × UserDeviceStream) → List (String × UserDeviceStream))
    (hf : ∀ tbl, keysND tbl → keysND (f tbl))
    (reg : List (String × List (String × UserDeviceStream)))
    (h : regWF reg) : regWF (updAt uid f reg) := by
  refine ⟨keysND_updAt _ _ _ h.1, ?_⟩
  intro p hp
  rcases mem_updAt p uid f reg hp with h1 | ⟨v, hv, he⟩
  · exact h.2 p h1
  · exact he ▸ hf v (h.2 (p.1, v) hv)

theorem lookup2_updAt_mapSnd (u d uid : String)
    (g : UserDeviceStream → UserDeviceStream)
    (reg : List (String × List (String × UserDeviceStream))) :
    Notifier.lookup2 u d
        (updAt uid (fun t => t.map fun q => (q.1, g q.2)) reg) =
      if uid = u then (Notifier.lookup2 u d reg).map g
      else Notifier.lookup2 u d reg := by
  rw [lookup2_eq_bind, lookup2_eq_bind, alistLookup_updAt]
  by_cases h : uid = u
  · rw [if_pos h, if_pos h]
    cases alistLookup u reg with
    | none => rfl
    | some tbl => simp [alistLookup_mapSnd]
  · rw [if_neg h, if_neg h]

theorem lookup2_updAt_updAt (u d uid did : String)
    (g : UserDeviceStream → UserDeviceStream)
    (reg : List (String × List (String × UserDeviceStream))) :
    Notifier.lookup2 u d (updAt uid (updAt did g) reg) =
      if uid = u ∧ did = d then (Notifier.lookup2 u d reg).map g
      else Notifier.lookup2 u d reg := by
  rw [lookup2_eq_bind, lookup2_eq_bind, alistLookup_updAt]
  by_cases h1 : uid = u
  · rw [if_pos h1]
    cases alistLookup u reg with
    | none => simp
    | some tbl =>
      by_cases h2 : did = d <;> simp [alistLookup_updAt, h1, h2]
  · rw [if_neg h1, if_neg (fun hc => h1 hc.1)]

/-! ### Projections and identity preservation of the wake fan-out -/

theorem removeEmptyUserStreams_proj (n : Notifier) (now : Int) :
    (n.removeEmptyUserStreams now).currPos = n.currPos ∧
    (n.removeEmptyUserStreams now).roomIDToJoinedUsers =
      n.roomIDToJoinedUsers ∧
    (n.removeEmptyUserStreams now).nextSid = n.nextSid := by
  unfold Notifier.removeEmptyUserStreams
  split <;> simp

theorem wakeupUsers_proj (now : Int) (tok : StreamingToken) (us : List String)
    (n : Notifier) :
    ((Notifier.wakeupUsers now tok us n).1).currPos = n.currPos ∧
    ((Notifier.wakeupUsers now tok us n).1).roomIDToJoinedUsers =
      n.roomIDToJoinedUsers ∧
    ((Notifier.wakeupUsers now tok us n).1).lastCleanUpTime =
      n.lastCleanUpTime ∧
    ((Notifier.wakeupUsers now tok us n).1).nextSid = n.nextSid := by
  induction us generalizing n with
  | nil => simp [Notifier.wakeupUsers]
  | cons u rest ih =>
    unfold Notifier.wakeupUsers
    cases h : alistLookup u n.userDeviceStreams with
    | none => simpa using ih n
    | some tbl => simpa using ih _

theorem wakeupUserDevice_proj (now : Int) (tok : StreamingToken)
    (uid : String) (ds : List String) (n : Notifier) :
    ((Notifier.wakeupUserDevice now tok uid ds n).1).currPos = n.currPos ∧
    ((Notifier.wakeupUserDevice now tok uid ds n).1).roomIDToJoinedUsers =
      n.roomIDToJoinedUsers ∧
    ((Notifier.wakeupUserDevice now tok uid ds n).1).lastCleanUpTime =
      n.lastCleanUpTime ∧
    ((Notifier.wakeupUserDevice now tok uid ds n).1).nextSid = n.nextSid := by
  induction ds generalizing n with
  | nil => simp [Notifier.wakeupUserDevice]
  | cons d rest ih =>
    unfold Notifier.wakeupUserDevice
    rw [fetchUserDeviceStream_false]
    cases h : Notifier.lookup2 uid d n.userDeviceStreams with
    | none => simpa using ih n
    | some s => simpa using ih _

/-- The state passed to the recursive `wakeupUsers` call after broadcasting
to every stream of `uid`. -/
def broadcastUserState (now : Int) (tok : StreamingToken) (uid : String)
    (n : Notifier) : Notifier :=
  ⟨n.roomIDToJoinedUsers, n.currPos,
   updAt uid (fun t => t.map fun q => (q.1, q.2.Broadcast tok now))
     n.userDeviceStreams,
   n.lastCleanUpTime, n.nextSid⟩

/-- The state passed to the recursive `wakeupUserDevice` call after
broadcasting to the stream of `(uid, d0)`. -/
def broadcastDeviceState (now : Int) (tok : StreamingToken) (uid d0 : String)
    (n : Notifier) : Notifier :=
  ⟨n.roomIDToJoinedUsers, n.currPos,
   updAt uid (updAt d0 fun s0 => s0.Broadcast tok now) n.userDeviceStreams,
   n.lastCleanUpTime, n.nextSid⟩

theorem wakeupUsers_cons_none (now : Int) (tok : StreamingToken)
    (uid : String) (rest : List String) (n : Notifier)
    (h : alistLookup uid n.userDeviceStreams = none) :
    Notifier.wakeupUsers now tok (uid :: rest) n =
      Notifier.wakeupUsers now tok rest n := by
  conv_lhs => rw [Notifier.wakeupUsers]
  rw [h]

theorem wakeupUsers_cons_some (now : Int) (tok : StreamingToken)
    (uid : String) (rest : List String) (n : Notifier)
    (tbl : List (String × UserDeviceStream))
    (h : alistLookup uid n.userDeviceStreams = some tbl) :
    Notifier.wakeupUsers now tok (uid :: rest) n =
      ((Notifier.wakeupUsers now tok rest
          (broadcastUserState now tok uid n)).1,
       (tbl.map fun q => Wake.mk uid q.1 q.2.sid tok) ++
         (Notifier.wakeupUsers now tok rest
           (broadcastUserState now tok uid n)).2) := by
  conv_lhs => rw [Notifier.wakeupUsers]
  rw [h]
  rfl

theorem wakeupUserDevice_cons_none (now : Int) (tok : StreamingToken)
    (uid d0 : String) (rest : List String) (n : Notifier)
    (h : Notifier.lookup2 uid d0 n.userDeviceStreams = none) :
    Notifier.wakeupUserDevice now tok uid (d0 :: rest) n =
      Notifier.wakeupUserDevice now tok uid rest n := by
  conv_lhs => rw [Notifier.wakeupUserDevice]
  rw [fetchUserDeviceStream_false, h]

theorem wakeupUserDevice_cons_some (now : Int) (tok : StreamingToken)
    (uid d0 : String) (rest : List String) (n : Notifier)
    (s : UserDeviceStream)
    (h : Notifier.lookup2 uid d0 n.userDeviceStreams = some s) :
    Notifier.wakeupUserDevice now tok uid (d0 :: rest) n =
      ((Notifier.wakeupUserDevice now tok uid rest
          (broadcastDeviceState now tok uid d0 n)).1,
       Wake.mk uid d0 s.sid tok ::
         (Notifier.wakeupUserDevice now tok uid rest
           (broadcastDeviceState now tok uid d0 n)).2) := by
  conv_lhs => rw [Notifier.wakeupUserDevice]
  rw [fetchUserDeviceStream_false, h]
  rfl

theorem wakeupUsers_sidAt (now : Int) (tok : StreamingToken)
    (us : List String) (n : Notifier) (u d : String) :
    (Notifier.lookup2 u d
        ((Notifier.wakeupUsers now tok us n).1).userDeviceStreams).map
        UserDeviceStream.sid =
      (Notifier.lookup2 u d n.userDeviceStreams).map UserDeviceStream.sid := by
  induction us generalizing n with
  | nil => simp [Notifier.wakeupUsers]
  | cons uid rest ih =>
    cases h : alistLookup uid n.userDeviceStreams with
    | none => rw [wakeupUsers_cons_none now tok uid rest n h]; exact ih n
    | some tbl =>
      rw [wakeupUsers_cons_some now tok uid rest n tbl h]
      rw [ih (broadcastUserState now tok uid n)]
      show (Notifier.lookup2 u d
        (updAt uid (fun t => t.map fun q => (q.1, q.2.Broadcast tok now))
          n.userDeviceStreams)).map UserDeviceStream.sid = _
      rw [lookup2_updAt_mapSnd u d uid (fun s0 => s0.Broadcast tok now)
        n.userDeviceStreams]
      by_cases hu : uid = u
      · rw [if_pos hu]
        cases Notifier.lookup2 u d n.userDeviceStreams with
        | none => rfl
        | some s => simp [UserDeviceStream.Broadcast_sid]
      · rw [if_neg hu]

theorem wakeupUserDevice_sidAt (now : Int) (tok : StreamingToken)
    (uid : String) (ds : List String) (n : Notifier) (u d : String) :
    (Notifier.lookup2 u d
        ((Notifier.wakeupUserDevice now tok uid ds n).1).userDeviceStreams).map
        UserDeviceStream.sid =
      (Notifier.lookup2 u d n.userDeviceStreams).map UserDeviceStream.sid := by
  induction ds generalizing n with
  | nil => simp [Notifier.wakeupUserDevice]
  | cons d0 rest ih =>
    cases h : Notifier.lookup2 uid d0 n.userDeviceStreams with
    | none => rw [wakeupUserDevice_cons_none now tok uid d0 rest n h]; exact ih n
    | some s =>
      rw [wakeupUserDevice_cons_some now tok uid d0 rest n s h]
      rw [ih (broadcastDeviceState now tok uid d0 n)]
      show (Notifier.lookup2 u d
        (updAt uid (updAt d0 fun s0 => s0.Broadcast tok now)
          n.userDeviceStreams)).map UserDeviceStream.sid = _
      rw [lookup2_updAt_updAt u d uid d0 (fun s0 => s0.Broadcast tok now)
        n.userDeviceStreams]
      by_cases hc : uid = u ∧ d0 = d
      · rw [if_pos hc]
        cases Notifier.lookup2 u d n.userDeviceStreams with
        | none => rfl
        | some s1 => simp [UserDeviceStream.Broadcast_sid]
      · rw [if_neg hc]

/-- The wake fan-out preserves regWF: keys are untouched. -/
theorem wakeupUsers_WF (now : Int) (tok : StreamingToken) (us : List String)
    (n : Notifier) (h : regWF n.userDeviceStreams) :
    regWF ((Notifier.wakeupUsers now tok us n).1).userDeviceStreams := by
  induction us generalizing n with
  | nil => simpa [Notifier.wakeupUsers] using h
  | cons uid rest ih =>
    unfold Notifier.wakeupUsers
    cases ha : alistLookup uid n.userDeviceStreams with
    | none => exact ih n h
    | some tbl =>
      exact ih _ (regWF_updAt uid
        (fun t => t.map fun q => (q.1, q.2.Broadcast tok now))
        (fun t ht => keysND_mapSnd (fun s0 => s0.Broadcast tok now) t ht) _ h)

theorem wakeupUserDevice_WF (now : Int) (tok : StreamingToken) (uid : String)
    (ds : List String) (n : Notifier) (h : regWF n.userDeviceStreams) :
    regWF ((Notifier.wakeupUserDevice now tok uid ds n).1).userDeviceStreams := by
  induction ds generalizing n with
  | nil => simpa [Notifier.wakeupUserDevice] using h
  | cons d0 rest ih =>
    unfold Notifier.wakeupUserDevice
    rw [fetchUserDeviceStream_false]
    cases hl : Notifier.lookup2 uid d0 n.userDeviceStreams with
    | none => exact ih n h
    | some s =>
      exact ih _ (regWF_updAt uid
        (updAt d0 fun s0 => s0.Broadcast tok now)
        (fun t ht => keysND_updAt d0 (fun s0 => s0.Broadcast tok now) t ht) _ h)

/-! ### GC sweep characterization -/

theorem removeEmptyUserStreams_noop (n : Notifier) (now : Int)
    (h : n.lastCleanUpTime + 60 > now) : n.removeEmptyUserStreams now = n := by
  unfold Notifier.removeEmptyUserStreams
  rw [if_pos h]

theorem sweepUserEntry_fst (deleteBefore : Int)
    (p q : String × List (String × UserDeviceStream))
    (h : Notifier.sweepUserEntry deleteBefore p = some q) : q.1 = p.1 := by
  unfold Notifier.sweepUserEntry at h
  dsimp only at h
  split at h
  · exact absurd h (by simp)
  · exact (congrArg Prod.fst (Option.some.inj h)).symm

theorem filterMap_keys_sublist {α β : Type}
    (F : String × α → Option (String × β))
    (hF : ∀ p q, F p = some q → q.1 = p.1) (l : List (String × α)) :
    ((l.filterMap F).map Prod.fst).Sublist (l.map Prod.fst) := by
  induction l with
  | nil => simp
  | cons p t ih =>
    rw [List.filterMap_cons]
    cases hFp : F p with
    | none =>
      simp only [List.map_cons]
      exact List.Sublist.cons _ ih
    | some q =>
      simp only [List.map_cons]
      rw [hF p q hFp]
      exact List.Sublist.cons₂ _ ih

theorem alistLookup_filterMap {α β : Type}
    (F : String × α → Option (String × β))
    (hF : ∀ p q, F p = some q → q.1 = p.1)
    (l : List (String × α)) (hnd : keysND l) (k : String) :
    alistLookup k (l.filterMap F) =
      (alistLookup k l).bind fun v => (F (k, v)).map Prod.snd := by
  induction l with
  | nil => simp [alistLookup]
  | cons p t ih =>
    obtain ⟨a, b⟩ := p
    unfold keysND at hnd
    simp only [List.map_cons, List.nodup_cons] at hnd
    rw [List.filterMap_cons]
    cases hFp : F (a, b) with
    | none =>
      by_cases hk : a = k
      · subst hk
        have ht : alistLookup a t = none := (alistLookup_none_iff a t).mpr hnd.1
        rw [ih hnd.2, ht]
        simp [alistLookup, hFp]
      · rw [ih hnd.2]
        simp [alistLookup, hk]
    | some q =>
      obtain ⟨q1, q2⟩ := q
      have hq : q1 = a := hF (a, b) (q1, q2) hFp
      subst hq
      by_cases hk : q1 = k
      · subst hk
        simp [alistLookup, hFp]
      · simp [alistLookup, hk, ih hnd.2]

theorem alistLookup_filter {α : Type} (P : α → Bool)
    (l : List (String × α)) (hnd : keysND l) (k : String) :
    alistLookup k (l.filter fun q => P q.2) =
      (alistLookup k l).bind fun v => if P v then some v else none := by
  induction l with
  | nil => simp [alistLookup]
  | cons p t ih =>
    obtain ⟨a, b⟩ := p
    unfold keysND at hnd
    simp only [List.map_cons, List.nodup_cons] at hnd
    rw [List.filter_cons]
    by_cases hP : P b
    · rw [if_pos (by simpa using hP)]
      by_cases hk : a = k
      · subst hk
        simp [alistLookup, hP]
      · simp [alistLookup, hk, ih hnd.2]
    · rw [if_neg (by simpa using hP)]
      by_cases hk : a = k
      · subst hk
        have ht : alistLookup a t = none := (alistLookup_none_iff a t).mpr hnd.1
        have ht2 : alistLookup a (t.filter fun q => P q.2) = none := by
          rw [ih hnd.2, ht]
          rfl
        rw [ht2]
        simp [alistLookup, hP]
      · simp [alistLookup, hk, ih hnd.2]

theorem removeEmptyUserStreams_WF (n : Notifier) (now : Int) (h : n.WF) :
    (n.removeEmptyUserStreams now).WF := by
  unfold Notifier.WF at h ⊢
  unfold Notifier.removeEmptyUserStreams
  split
  · exact h
  · dsimp only
    refine ⟨?_, ?_⟩
    · exact List.Nodup.sublist
        (filterMap_keys_sublist _ (sweepUserEntry_fst (now - 300))
          n.userDeviceStreams) h.1
    · intro p hp
      rw [List.mem_filterMap] at hp
      obtain ⟨p0, hp0, hF0⟩ := hp
      unfold Notifier.sweepUserEntry at hF0
      dsimp only at hF0
      split at hF0
      · exact absurd hF0 (by simp)
      · cases Option.some.inj hF0
        exact List.Nodup.sublist
          (List.Sublist.map Prod.fst (List.filter_sublist p0.2)) (h.2 p0 hp0)

theorem removeEmptyUserStreams_userTbl (n : Notifier) (now : Int)
    (hwf : n.WF) (h : ¬ n.lastCleanUpTime + 60 > now) (u : String) :
    alistLookup u (n.removeEmptyUserStreams now).userDeviceStreams =
      (alistLookup u n.userDeviceStreams).bind fun tbl =>
        (Notifier.sweepUserEntry (now - 300) (u, tbl)).map Prod.snd := by
  unfold Notifier.removeEmptyUserStreams
  rw [if_neg h]
  dsimp only
  exact alistLookup_filterMap _ (sweepUserEntry_fst (now - 300))
    n.userDeviceStreams hwf.1 u

theorem removeEmptyUserStreams_lookup2 (n : Notifier) (now : Int)
    (hwf : n.WF) (h : ¬ n.lastCleanUpTime + 60 > now) (u d : String) :
    Notifier.lookup2 u d (n.removeEmptyUserStreams now).userDeviceStreams =
      (Notifier.lookup2 u d n.userDeviceStreams).bind fun s =>
        if s.timeOfLastNonEmpty < now - 300 then none else some s := by
  rw [lookup2_eq_bind, lookup2_eq_bind,
    removeEmptyUserStreams_userTbl n now hwf h u]
  cases htbl : alistLookup u n.userDeviceStreams with
  | none => rfl
  | some tbl =>
    have hnd : keysND tbl := hwf.2 (u, tbl) (alistLookup_mem u tbl _ htbl)
    simp only [Option.some_bind]
    unfold Notifier.sweepUserEntry
    dsimp only
    split
    case isTrue hemp =>
      simp only [Option.map_none', Option.none_bind']
      cases hd : alistLookup d tbl with
      | none => rfl
      | some s =>
        have hmem : (d, s) ∈ tbl := alistLookup_mem d s tbl hd
        have hall := List.filter_eq_nil.mp (List.isEmpty_iff.mp hemp.1)
        have hs : s.timeOfLastNonEmpty < now - 300 := by
          have h1 := hall (d, s) hmem
          simp at h1
          omega
        simp only [Option.some_bind]
        rw [if_pos hs]
    case isFalse hemp =>
      simp only [Option.map_some', Option.some_bind]
      rw [alistLookup_filter
        (fun s => decide (¬ s.timeOfLastNonEmpty < now - 300)) tbl hnd d]
      cases alistLookup d tbl with
      | none => rfl
      | some s =>
        simp only [Option.some_bind]
        by_cases hc : s.timeOfLastNonEmpty < now - 300
        · have h1 : ¬ (decide (¬ s.timeOfLastNonEmpty < now - 300) = true) := by
            simp [hc]
          rw [if_neg h1, if_pos hc]
        · have h1 : decide (¬ s.timeOfLastNonEmpty < now - 300) = true := by
            simp [hc]
          rw [if_pos h1, if_neg hc]

/-! ### Wake-trace characterization -/

theorem streamAt_broadcastUserState (now : Int) (tok : StreamingToken)
    (uid : String) (n : Notifier) (w : Wake) :
    streamAt (broadcastUserState now tok uid n).userDeviceStreams w ↔
      streamAt n.userDeviceStreams w := by
  unfold streamAt broadcastUserState
  dsimp only
  rw [lookup2_updAt_mapSnd w.userID w.deviceID uid
    (fun s0 => s0.Broadcast tok now) n.userDeviceStreams]
  by_cases hu : uid = w.userID
  · rw [if_pos hu]
    cases Notifier.lookup2 w.userID w.deviceID n.userDeviceStreams with
    | none => simp
    | some s => simp [UserDeviceStream.Broadcast_sid]
  · rw [if_neg hu]

theorem streamAt_broadcastDeviceState (now : Int) (tok : StreamingToken)
    (uid d0 : String) (n : Notifier) (w : Wake) :
    streamAt (broadcastDeviceState now tok uid d0 n).userDeviceStreams w ↔
      streamAt n.userDeviceStreams w := by
  unfold streamAt broadcastDeviceState
  dsimp only
  rw [lookup2_updAt_updAt w.userID w.deviceID uid d0
    (fun s0 => s0.Broadcast tok now) n.userDeviceStreams]
  by_cases hc : uid = w.userID ∧ d0 = w.deviceID
  · rw [if_pos hc]
    cases Notifier.lookup2 w.userID w.deviceID n.userDeviceStreams with
    | none => simp
    | some s => simp [UserDeviceStream.Broadcast_sid]
  · rw [if_neg hc]

theorem tblWakes_mem (uid : String) (tok : StreamingToken)
    (tbl : List (String × UserDeviceStream))
    (reg : List (String × List (String × UserDeviceStream)))
    (hreg : alistLookup uid reg = some tbl) (hnd : keysND tbl) (w : Wake) :
    w ∈ tbl.map (fun q => Wake.mk uid q.1 q.2.sid tok) ↔
      w.userID = uid ∧ w.pos = tok ∧ streamAt reg w := by
  constructor
  · intro hw
    obtain ⟨q, hq, rfl⟩ := List.mem_map.mp hw
    refine ⟨rfl, rfl, ?_⟩
    unfold streamAt
    rw [lookup2_eq_bind]
    dsimp only
    rw [hreg]
    simp only [Option.some_bind]
    rw [mem_alistLookup q.1 q.2 tbl hnd (by simpa using hq)]
    rfl
  · rintro ⟨h1, h2, h3⟩
    unfold streamAt at h3
    rw [lookup2_eq_bind, h1, hreg] at h3
    simp only [Option.some_bind] at h3
    cases hd : alistLookup w.deviceID tbl with
    | none => rw [hd] at h3; simp at h3
    | some s =>
      rw [hd] at h3
      simp only [Option.map_some'] at h3
      have hsid : s.sid = w.sid := Option.some.inj h3
      have hmem : (w.deviceID, s) ∈ tbl := alistLookup_mem _ _ _ hd
      refine List.mem_map.mpr ⟨(w.deviceID, s), hmem, ?_⟩
      cases w
      simp_all

theorem wakeupUsers_wakes_pos (now : Int) (tok : StreamingToken)
    (us : List String) (n : Notifier) :
    ∀ w ∈ (Notifier.wakeupUsers now tok us n).2, w.pos = tok := by
  induction us generalizing n with
  | nil => simp [Notifier.wakeupUsers]
  | cons uid rest ih =>
    cases h : alistLookup uid n.userDeviceStreams with
    | none =>
      rw [wakeupUsers_cons_none now tok uid rest n h]
      exact ih n
    | some tbl =>
      rw [wakeupUsers_cons_some now tok uid rest n tbl h]
      intro w hw
      rcases List.mem_append.mp hw with hw | hw
      · obtain ⟨q, hq, rfl⟩ := List.mem_map.mp hw
        rfl
      · exact ih _ w hw

theorem wakeupUsers_mem (now : Int) (tok : StreamingToken) (us : List String)
    (n : Notifier) (hwf : regWF n.userDeviceStreams) (w : Wake) :
    w ∈ (Notifier.wakeupUsers now tok us n).2 ↔
      w.userID ∈ us ∧ w.pos = tok ∧ streamAt n.userDeviceStreams w := by
  induction us generalizing n with
  | nil => simp [Notifier.wakeupUsers]
  | cons uid rest ih =>
    cases h : alistLookup uid n.userDeviceStreams with
    | none =>
      rw [wakeupUsers_cons_none now tok uid rest n h, ih n hwf]
      constructor
      · rintro ⟨h1, h2, h3⟩
        exact ⟨List.mem_cons_of_mem _ h1, h2, h3⟩
      · rintro ⟨h1, h2, h3⟩
        rcases List.mem_cons.mp h1 with h4 | h4
        · exfalso
          unfold streamAt at h3
          rw [lookup2_eq_bind, h4, h] at h3
          simp at h3
        · exact ⟨h4, h2, h3⟩
    | some tbl =>
      have hnd : keysND tbl := hwf.2 (uid, tbl) (alistLookup_mem _ _ _ h)
      rw [wakeupUsers_cons_some now tok uid rest n tbl h]
      have hwf1 : regWF (broadcastUserState now tok uid n).userDeviceStreams := by
        unfold broadcastUserState
        dsimp only
        exact regWF_updAt uid
          (fun t => t.map fun q => (q.1, q.2.Broadcast tok now))
          (fun t ht => keysND_mapSnd (fun s0 => s0.Broadcast tok now) t ht)
          _ hwf
      constructor
      · intro hw
        rcases List.mem_append.mp hw with hw | hw
        · have h5 :=
            (tblWakes_mem uid tok tbl n.userDeviceStreams h hnd w).mp hw
          exact ⟨h5.1 ▸ List.mem_cons_self _ _, h5.2.1, h5.2.2⟩
        · have h5 := (ih _ hwf1).mp hw
          exact ⟨List.mem_cons_of_mem _ h5.1, h5.2.1,
            (streamAt_broadcastUserState now tok uid n w).mp h5.2.2⟩
      · rintro ⟨h1, h2, h3⟩
        rcases List.mem_cons.mp h1 with h4 | h4
        · exact List.mem_append.mpr (Or.inl
            ((tblWakes_mem uid tok tbl n.userDeviceStreams h hnd w).mpr
              ⟨h4, h2, h3⟩))
        · exact List.mem_append.mpr (Or.inr ((ih _ hwf1).mpr
            ⟨h4, h2, (streamAt_broadcastUserState now tok uid n w).mpr h3⟩))

theorem wakeupUserDevice_wakes (now : Int) (tok : StreamingToken)
    (uid : String) (ds : List String) (n : Notifier) (w : Wake)
    (hw : w ∈ (Notifier.wakeupUserDevice now tok uid ds n).2) :
    w.userID = uid ∧ w.deviceID ∈ ds ∧ w.pos = tok ∧
      streamAt n.userDeviceStreams w := by
  induction ds generalizing n with
  | nil => simp [Notifier.wakeupUserDevice] at hw
  | cons d0 rest ih =>
    cases h : Notifier.lookup2 uid d0 n.userDeviceStreams with
    | none =>
      rw [wakeupUserDevice_cons_none now tok uid d0 rest n h] at hw
      have h5 := ih n hw
      exact ⟨h5.1, List.mem_cons_of_mem _ h5.2.1, h5.2.2⟩
    | some s =>
      rw [wakeupUserDevice_cons_some now tok uid d0 rest n s h] at hw
      rcases List.mem_cons.mp hw with hw1 | hw1
      · subst hw1
        refine ⟨rfl, List.mem_cons_self _ _, rfl, ?_⟩
        unfold streamAt
        dsimp only
        rw [h]
        rfl
      · have h5 := ih _ hw1
        exact ⟨h5.1, List.mem_cons_of_mem _ h5.2.1, h5.2.2.1,
          (streamAt_broadcastDeviceState now tok uid d0 n w).mp h5.2.2.2⟩

theorem wakeupUserDevice_frame (now : Int) (tok : StreamingToken)
    (uid : String) (ds : List String) :
    ∀ (n : Notifier) (u d : String), u ≠ uid ∨ d ∉ ds →
      Notifier.lookup2 u d
          ((Notifier.wakeupUserDevice now tok uid ds n).1).userDeviceStreams =
        Notifier.lookup2 u d n.userDeviceStreams := by
  induction ds with
  | nil => intro n u d _; simp [Notifier.wakeupUserDevice]
  | cons d0 rest ih =>
    intro n u d hne
    have hne2 : u ≠ uid ∨ d ∉ rest := by
      rcases hne with h1 | h1
      · exact Or.inl h1
      · exact Or.inr fun hc => h1 (List.mem_cons_of_mem _ hc)
    cases h : Notifier.lookup2 uid d0 n.userDeviceStreams with
    | none =>
      rw [wakeupUserDevice_cons_none now tok uid d0 rest n h]
      exact ih n u d hne2
    | some s =>
      rw [wakeupUserDevice_cons_some now tok uid d0 rest n s h]
      rw [ih _ u d hne2]
      unfold broadcastDeviceState
      dsimp only
      rw [lookup2_updAt_updAt u d uid d0
        (fun s0 => s0.Broadcast tok now) n.userDeviceStreams]
      refine if_neg ?_
      rcases hne with h1 | h1
      · exact fun hc => h1 hc.1.symm
      · exact fun hc => h1 (by rw [hc.2]; exact List.mem_cons_self _ _)

/-! ### Membership index and OnNewEvent branch equations -/

/-- The token advance and opportunistic GC that `OnNewEvent` performs before
dispatching (source lines 77-80). -/
def advanceSweep (n : Notifier) (posUpdate : StreamingToken) (now : Int) :
    Notifier :=
  Notifier.removeEmptyUserStreams
    { n with currPos := n.currPos.WithUpdates posUpdate } now

theorem applyMembership_frame (n : Notifier) (e : HeaderedEvent)
    (us : List String) :
    ∃ ru, (Notifier.applyMembership n e us).2 =
      ⟨ru, n.currPos, n.userDeviceStreams, n.lastCleanUpTime, n.nextSid⟩ := by
  unfold Notifier.applyMembership
  repeat' split
  all_goals exact ⟨_, rfl⟩

theorem applyMembership_notMember (n : Notifier) (e : HeaderedEvent)
    (us : List String) (htype : ¬ e.eventType = "m.room.member") :
    Notifier.applyMembership n e us = (us, n) := by
  unfold Notifier.applyMembership
  rw [if_neg htype]

theorem applyMembership_noKey (n : Notifier) (e : HeaderedEvent)
    (us : List String) (htype : e.eventType = "m.room.member")
    (hkey : e.stateKey = none) :
    Notifier.applyMembership n e us = (us, n) := by
  unfold Notifier.applyMembership
  rw [if_pos htype, hkey]

theorem applyMembership_parseFail (n : Notifier) (e : HeaderedEvent)
    (us : List String) (t : String) (htype : e.eventType = "m.room.member")
    (hkey : e.stateKey = some t) (hmem : e.membership = none) :
    Notifier.applyMembership n e us = (us, n) := by
  unfold Notifier.applyMembership
  rw [if_pos htype, hkey, hmem]

theorem applyMembership_invite (n : Notifier) (e : HeaderedEvent)
    (us : List String) (t : String) (htype : e.eventType = "m.room.member")
    (hkey : e.stateKey = some t) (hmem : e.membership = some "invite") :
    Notifier.applyMembership n e us = (us ++ [t], n) := by
  unfold Notifier.applyMembership
  rw [if_pos htype, hkey, hmem]
  dsimp only
  rw [if_pos rfl]

theorem applyMembership_join (n : Notifier) (e : HeaderedEvent)
    (us : List String) (t : String) (htype : e.eventType = "m.room.member")
    (hkey : e.stateKey = some t) (hmem : e.membership = some "join") :
    Notifier.applyMembership n e us =
      (us ++ [t], n.addJoinedUser e.roomID t) := by
  unfold Notifier.applyMembership
  rw [if_pos htype, hkey, hmem]
  dsimp only
  rw [if_neg (by decide), if_pos rfl]

theorem applyMembership_leaveBan (n : Notifier) (e : HeaderedEvent)
    (us : List String) (t m : String) (htype : e.eventType = "m.room.member")
    (hkey : e.stateKey = some t) (hmem : e.membership = some m)
    (hm : m = "leave" ∨ m = "ban") :
    Notifier.applyMembership n e us = (us, n.removeJoinedUser e.roomID t) := by
  unfold Notifier.applyMembership
  rw [if_pos htype, hkey, hmem]
  dsimp only
  rcases hm with hm | hm <;> subst hm
  · rw [if_neg (by decide), if_neg (by decide), if_pos (Or.inl rfl)]
  · rw [if_neg (by decide), if_neg (by decide), if_pos (Or.inr rfl)]

theorem joinedUsers_congr (n m : Notifier)
    (h : n.roomIDToJoinedUsers = m.roomIDToJoinedUsers) (r : String) :
    n.joinedUsers r = m.joinedUsers r := by
  unfold Notifier.joinedUsers
  rw [h]

theorem joinedUsers_add_self (n : Notifier) (r t : String) :
    t ∈ (n.addJoinedUser r t).joinedUsers r := by
  unfold Notifier.addJoinedUser Notifier.joinedUsers
  dsimp only
  rw [alistLookup_insert, if_pos rfl]
  dsimp only
  unfold userIDSet.add userIDSet.values
  split
  · assumption
  · simp

theorem joinedUsers_remove_self (n : Notifier) (r t : String) :
    t ∉ (n.removeJoinedUser r t).joinedUsers r := by
  unfold Notifier.removeJoinedUser Notifier.joinedUsers
  dsimp only
  rw [alistLookup_insert, if_pos rfl]
  dsimp only
  unfold userIDSet.remove userIDSet.values
  intro hc
  have h1 := List.of_mem_filter hc
  simp at h1

theorem OnNewEvent_some (n : Notifier) (e : HeaderedEvent) (roomID : String)
    (userIDs : List String) (posUpdate : StreamingToken) (now : Int) :
    n.OnNewEvent (some e) roomID userIDs posUpdate now =
      let n1 := advanceSweep n posUpdate now
      let un2 := Notifier.applyMembership n1 e (n1.joinedUsers e.roomID)
      let r := Notifier.wakeupUsers now (n.currPos.WithUpdates posUpdate)
        un2.1 un2.2
      ⟨r.1, r.2, false⟩ := rfl

theorem OnNewEvent_room (n : Notifier) (roomID : String)
    (userIDs : List String) (posUpdate : StreamingToken) (now : Int)
    (h : roomID ≠ "") :
    n.OnNewEvent none roomID userIDs posUpdate now =
      let n1 := advanceSweep n posUpdate now
      let r := Notifier.wakeupUsers now (n.currPos.WithUpdates posUpdate)
        (n1.joinedUsers roomID) n1
      ⟨r.1, r.2, false⟩ := by
  unfold Notifier.OnNewEvent advanceSweep
  dsimp only
  rw [if_pos h]

theorem OnNewEvent_userIDs (n : Notifier) (userIDs : List String)
    (posUpdate : StreamingToken) (now : Int) (h : userIDs.length > 0) :
    n.OnNewEvent none "" userIDs posUpdate now =
      let n1 := advanceSweep n posUpdate now
      let r := Notifier.wakeupUsers now (n.currPos.WithUpdates posUpdate)
        userIDs n1
      ⟨r.1, r.2, false⟩ := by
  unfold Notifier.OnNewEvent advanceSweep
  dsimp only
  rw [if_neg (fun hc => hc rfl), if_pos h]

theorem OnNewEvent_warn (n : Notifier) (posUpdate : StreamingToken)
    (now : Int) :
    n.OnNewEvent none "" [] posUpdate now =
      ⟨advanceSweep n posUpdate now, [], true⟩ := by
  unfold Notifier.OnNewEvent advanceSweep
  dsimp only
  rw [if_neg (fun hc => hc rfl), if_neg (by simp)]

/-! ### State-level consequences of the ingress operations -/

theorem advanceSweep_proj (n : Notifier) (posUpdate : StreamingToken)
    (now : Int) :
    (advanceSweep n posUpdate now).currPos =
      n.currPos.WithUpdates posUpdate ∧
    (advanceSweep n posUpdate now).roomIDToJoinedUsers =
      n.roomIDToJoinedUsers ∧
    (advanceSweep n posUpdate now).nextSid = n.nextSid := by
  unfold advanceSweep
  have h := removeEmptyUserStreams_proj
    { n with currPos := n.currPos.WithUpdates posUpdate } now
  exact ⟨h.1, h.2.1, h.2.2⟩

theorem advanceSweep_WF (n : Notifier) (posUpdate : StreamingToken)
    (now : Int) (h : n.WF) : (advanceSweep n posUpdate now).WF :=
  removeEmptyUserStreams_WF
    { n with currPos := n.currPos.WithUpdates posUpdate } now h

theorem advanceSweep_lookup2_none (n : Notifier) (posUpdate : StreamingToken)
    (now : Int) (u d : String) (hwf : n.WF)
    (h : Notifier.lookup2 u d n.userDeviceStreams = none) :
    Notifier.lookup2 u d (advanceSweep n posUpdate now).userDeviceStreams =
      none := by
  unfold advanceSweep
  by_cases hc :
      ({ n with currPos := n.currPos.WithUpdates posUpdate } :
        Notifier).lastCleanUpTime + 60 > now
  · rw [removeEmptyUserStreams_noop _ now hc]
    exact h
  · rw [removeEmptyUserStreams_lookup2
      { n with currPos := n.currPos.WithUpdates posUpdate } now hwf hc]
    show (Notifier.lookup2 u d n.userDeviceStreams).bind _ = none
    rw [h]
    rfl

theorem OnNewSendToDevice_eq (n : Notifier) (userID : String)
    (deviceIDs : List String) (posUpdate : StreamingToken) (now : Int) :
    n.OnNewSendToDevice userID deviceIDs posUpdate now =
      Notifier.wakeupUserDevice now (n.currPos.WithUpdates posUpdate) userID
        deviceIDs { n with currPos := n.currPos.WithUpdates posUpdate } := rfl

theorem OnNewKeyChange_eq (n : Notifier) (posUpdate : StreamingToken)
    (wakeUserID keyChangeUserID : String) (now : Int) :
    n.OnNewKeyChange posUpdate wakeUserID keyChangeUserID now =
      Notifier.wakeupUsers now (n.currPos.WithUpdates posUpdate) [wakeUserID]
        { n with currPos := n.currPos.WithUpdates posUpdate } := rfl

theorem OnNewEvent_state_currPos (n : Notifier) (ev : Option HeaderedEvent)
    (roomID : String) (userIDs : List String) (posUpdate : StreamingToken)
    (now : Int) :
    (n.OnNewEvent ev roomID userIDs posUpdate now).state.currPos =
      n.currPos.WithUpdates posUpdate := by
  cases ev with
  | some e =>
    rw [OnNewEvent_some]
    dsimp only
    rw [(wakeupUsers_proj now (n.currPos.WithUpdates posUpdate) _ _).1]
    obtain ⟨ru, hru⟩ := applyMembership_frame (advanceSweep n posUpdate now) e
      ((advanceSweep n posUpdate now).joinedUsers e.roomID)
    rw [hru]
    exact (advanceSweep_proj n posUpdate now).1
  | none =>
    by_cases h1 : roomID ≠ ""
    · rw [OnNewEvent_room n roomID userIDs posUpdate now h1]
      dsimp only
      rw [(wakeupUsers_proj now (n.currPos.WithUpdates posUpdate) _ _).1]
      exact (advanceSweep_proj n posUpdate now).1
    · rw [not_not] at h1
      subst h1
      by_cases h2 : userIDs.length > 0
      · rw [OnNewEvent_userIDs n userIDs posUpdate now h2]
        dsimp only
        rw [(wakeupUsers_proj now (n.currPos.WithUpdates posUpdate) _ _).1]
        exact (advanceSweep_proj n posUpdate now).1
      · have h3 : userIDs = [] := by
          cases userIDs with
          | nil => rfl
          | cons a t => exact absurd (by simp) h2
        subst h3
        rw [OnNewEvent_warn]
        exact (advanceSweep_proj n posUpdate now).1

theorem OnNewEvent_state_rooms (n : Notifier) (e : HeaderedEvent)
    (roomID : String) (userIDs : List String) (posUpdate : StreamingToken)
    (now : Int) :
    (n.OnNewEvent (some e) roomID userIDs posUpdate now).state.roomIDToJoinedUsers =
      (Notifier.applyMembership (advanceSweep n posUpdate now) e
        ((advanceSweep n posUpdate now).joinedUsers e.roomID)).2.roomIDToJoinedUsers := by
  rw [OnNewEvent_some]
  dsimp only
  exact (wakeupUsers_proj now (n.currPos.WithUpdates posUpdate) _ _).2.1

theorem OnNewEvent_wakes_pos (n : Notifier) (ev : Option HeaderedEvent)
    (roomID : String) (userIDs : List String) (posUpdate : StreamingToken)
    (now : Int) :
    ∀ w ∈ (n.OnNewEvent ev roomID userIDs posUpdate now).wakes,
      w.pos = n.currPos.WithUpdates posUpdate := by
  cases ev with
  | some e =>
    rw [OnNewEvent_some]
    dsimp only
    exact wakeupUsers_wakes_pos now _ _ _
  | none =>
    by_cases h1 : roomID ≠ ""
    · rw [OnNewEvent_room n roomID userIDs posUpdate now h1]
      dsimp only
      exact wakeupUsers_wakes_pos now _ _ _
    · rw [not_not] at h1
      subst h1
      by_cases h2 : userIDs.length > 0
      · rw [OnNewEvent_userIDs n userIDs posUpdate now h2]
        dsimp only
        exact wakeupUsers_wakes_pos now _ _ _
      · have h3 : userIDs = [] := by
          cases userIDs with
          | nil => rfl
          | cons a t => exact absurd (by simp) h2
        subst h3
        rw [OnNewEvent_warn]
        intro w hw
        simp at hw

/-- Every ingress call sets the current position to the merge of the old
position with the call's `posUpdate`. -/
def IngressCall.posUpdate : IngressCall → StreamingToken
  | .newEvent _ _ _ p _ => p
  | .newSendToDevice _ _ p _ => p
  | .newKeyChange p _ _ _ => p

theorem applyCall_currPos (n : Notifier) (c : IngressCall) :
    (applyCall n c).currPos = n.currPos.WithUpdates c.posUpdate := by
  cases c with
  | newEvent ev roomID userIDs p now =>
    exact OnNewEvent_state_currPos n ev roomID userIDs p now
  | newSendToDevice u ds p now =>
    show ((Notifier.wakeupUserDevice now (n.currPos.WithUpdates p) u ds
      { n with currPos := n.currPos.WithUpdates p }).1).currPos = _
    rw [(wakeupUserDevice_proj now (n.currPos.WithUpdates p) u ds _).1]
    rfl
  | newKeyChange p wu ku now =>
    show ((Notifier.wakeupUsers now (n.currPos.WithUpdates p) [wu]
      { n with currPos := n.currPos.WithUpdates p }).1).currPos = _
    rw [(wakeupUsers_proj now (n.currPos.WithUpdates p) [wu] _).1]
    rfl

theorem dimLE_WithUpdates (t other : StreamingToken) :
    StreamingToken.dimLE t (t.WithUpdates other) := by
  unfold StreamingToken.dimLE StreamingToken.WithUpdates
  exact ⟨le_max_left _ _, le_max_left _ _, le_max_left _ _⟩

/-! ### Stream fetch-or-create and GetListener -/

theorem fetchUserDeviceStream_true_none (n : Notifier) (u d : String)
    (now : Int) (h : alistLookup u n.userDeviceStreams = none) :
    n.fetchUserDeviceStream u d true now =
      (some (NewUserDeviceStream n.nextSid u d n.currPos now),
       ⟨n.roomIDToJoinedUsers, n.currPos,
        alistInsert u [(d, NewUserDeviceStream n.nextSid u d n.currPos now)]
          n.userDeviceStreams,
        n.lastCleanUpTime, n.nextSid + 1⟩) := by
  conv_lhs => rw [Notifier.fetchUserDeviceStream]
  rw [h]
  rfl

theorem fetchUserDeviceStream_true_hit (n : Notifier) (u d : String)
    (now : Int) (tbl : List (String × UserDeviceStream))
    (s : UserDeviceStream) (h1 : alistLookup u n.userDeviceStreams = some tbl)
    (h2 : alistLookup d tbl = some s) :
    n.fetchUserDeviceStream u d true now = (some s, n) := by
  conv_lhs => rw [Notifier.fetchUserDeviceStream]
  rw [h1]
  dsimp only
  rw [h2]

theorem fetchUserDeviceStream_true_newDevice (n : Notifier) (u d : String)
    (now : Int) (tbl : List (String × UserDeviceStream))
    (h1 : alistLookup u n.userDeviceStreams = some tbl)
    (h2 : alistLookup d tbl = none) :
    n.fetchUserDeviceStream u d true now =
      (some (NewUserDeviceStream n.nextSid u d n.currPos now),
       ⟨n.roomIDToJoinedUsers, n.currPos,
        alistInsert u
          (alistInsert d (NewUserDeviceStream n.nextSid u d n.currPos now) tbl)
          n.userDeviceStreams,
        n.lastCleanUpTime, n.nextSid + 1⟩) := by
  conv_lhs => rw [Notifier.fetchUserDeviceStream]
  rw [h1]
  dsimp only
  rw [h2]
  rfl

theorem fetchUserDeviceStream_true_found (n : Notifier) (u d : String)
    (now : Int) :
    ∃ s, (n.fetchUserDeviceStream u d true now).1 = some s ∧
      Notifier.lookup2 u d
        (n.fetchUserDeviceStream u d true now).2.userDeviceStreams = some s := by
  cases h : alistLookup u n.userDeviceStreams with
  | none =>
    rw [fetchUserDeviceStream_true_none n u d now h]
    refine ⟨NewUserDeviceStream n.nextSid u d n.currPos now, rfl, ?_⟩
    rw [lookup2_eq_bind]
    dsimp only
    rw [alistLookup_insert, if_pos rfl]
    simp [alistLookup]
  | some tbl =>
    cases h2 : alistLookup d tbl with
    | some s =>
      rw [fetchUserDeviceStream_true_hit n u d now tbl s h h2]
      refine ⟨s, rfl, ?_⟩
      rw [lookup2_eq_bind]
      dsimp only
      rw [h]
      simpa using h2
    | none =>
      rw [fetchUserDeviceStream_true_newDevice n u d now tbl h h2]
      refine ⟨NewUserDeviceStream n.nextSid u d n.currPos now, rfl, ?_⟩
      rw [lookup2_eq_bind]
      dsimp only
      rw [alistLookup_insert, if_pos rfl]
      simp only [Option.some_bind]
      rw [alistLookup_insert, if_pos rfl]

theorem fetchUserDeviceStream_true_existing (n : Notifier) (u d : String)
    (now : Int) (s : UserDeviceStream)
    (h : Notifier.lookup2 u d n.userDeviceStreams = some s) :
    n.fetchUserDeviceStream u d true now = (some s, n) := by
  rw [lookup2_eq_bind] at h
  cases h1 : alistLookup u n.userDeviceStreams with
  | none => rw [h1] at h; simp at h
  | some tbl =>
    rw [h1] at h
    simp only [Option.some_bind] at h
    exact fetchUserDeviceStream_true_hit n u d now tbl s h1 h

theorem fetchUserDeviceStream_true_WF (n : Notifier) (u d : String)
    (now : Int) (h : n.WF) : ((n.fetchUserDeviceStream u d true now).2).WF := by
  unfold Notifier.WF at h ⊢
  cases h1 : alistLookup u n.userDeviceStreams with
  | none =>
    rw [fetchUserDeviceStream_true_none n u d now h1]
    refine ⟨keysND_insert _ _ _ h.1, ?_⟩
    intro p hp
    rcases mem_alistInsert p u _ _ hp with h2 | h2
    · subst h2
      unfold keysND
      simp
    · exact h.2 p h2
  | some tbl =>
    cases h2 : alistLookup d tbl with
    | some s =>
      rw [fetchUserDeviceStream_true_hit n u d now tbl s h1 h2]
      exact h
    | none =>
      rw [fetchUserDeviceStream_true_newDevice n u d now tbl h1 h2]
      refine ⟨keysND_insert _ _ _ h.1, ?_⟩
      intro p hp
      rcases mem_alistInsert p u _ _ hp with h3 | h3
      · subst h3
        exact keysND_insert _ _ _
          (h.2 (u, tbl) (alistLookup_mem _ _ _ h1))
      · exact h.2 p h3

theorem GetListener_found (n : Notifier) (u d : String) (now : Int) :
    ∃ s, (n.GetListener u d now).1 = some s ∧
      Notifier.lookup2 u d (n.GetListener u d now).2.userDeviceStreams =
        some s := by
  unfold Notifier.GetListener
  exact fetchUserDeviceStream_true_found (n.removeEmptyUserStreams now) u d now

theorem GetListener_WF (n : Notifier) (u d : String) (now : Int)
    (h : n.WF) : (n.GetListener u d now).2.WF := by
  unfold Notifier.GetListener
  exact fetchUserDeviceStream_true_WF _ u d now
    (removeEmptyUserStreams_WF n now h)

theorem GetListener_existing (n : Notifier) (u d : String) (now : Int)
    (s : UserDeviceStream)
    (h : Notifier.lookup2 u d
      (n.removeEmptyUserStreams now).userDeviceStreams = some s) :
    n.GetListener u d now = (some s, n.removeEmptyUserStreams now) := by
  unfold Notifier.GetListener
  exact fetchUserDeviceStream_true_existing _ u d now s h

/-! ### WF preservation and registry non-growth of the ingress operations -/

theorem OnNewEvent_WF (n : Notifier) (ev : Option HeaderedEvent)
    (roomID : String) (userIDs : List String) (posUpdate : StreamingToken)
    (now : Int) (hwf : n.WF) :
    (n.OnNewEvent ev roomID userIDs posUpdate now).state.WF := by
  have h1 : (advanceSweep n posUpdate now).WF :=
    advanceSweep_WF n posUpdate now hwf
  cases ev with
  | some e =>
    rw [OnNewEvent_some]
    dsimp only
    obtain ⟨ru, hru⟩ := applyMembership_frame (advanceSweep n posUpdate now) e
      ((advanceSweep n posUpdate now).joinedUsers e.roomID)
    refine wakeupUsers_WF now _ _ _ ?_
    rw [hru]
    exact h1
  | none =>
    by_cases hr : roomID ≠ ""
    · rw [OnNewEvent_room n roomID userIDs posUpdate now hr]
      exact wakeupUsers_WF now _ _ _ h1
    · rw [not_not] at hr
      subst hr
      by_cases h2 : userIDs.length > 0
      · rw [OnNewEvent_userIDs n userIDs posUpdate now h2]
        exact wakeupUsers_WF now _ _ _ h1
      · have h3 : userIDs = [] := by
          cases userIDs with
          | nil => rfl
          | cons a t => exact absurd (by simp) h2
        subst h3
        rw [OnNewEvent_warn]
        exact h1

theorem OnNewSendToDevice_WF (n : Notifier) (userID : String)
    (deviceIDs : List String) (posUpdate : StreamingToken) (now : Int)
    (hwf : n.WF) : (n.OnNewSendToDevice userID deviceIDs posUpdate now).1.WF := by
  rw [OnNewSendToDevice_eq]
  exact wakeupUserDevice_WF now _ userID deviceIDs _ hwf

theorem OnNewKeyChange_WF (n : Notifier) (posUpdate : StreamingToken)
    (wakeUserID keyChangeUserID : String) (now : Int) (hwf : n.WF) :
    (n.OnNewKeyChange posUpdate wakeUserID keyChangeUserID now).1.WF := by
  rw [OnNewKeyChange_eq]
  exact wakeupUsers_WF now _ [wakeUserID] _ hwf

theorem lookup2_map_sid_none (reg : List (String × List (String × UserDeviceStream)))
    (u d : String)
    (h : (Notifier.lookup2 u d reg).map UserDeviceStream.sid = none) :
    Notifier.lookup2 u d reg = none := by
  cases hl : Notifier.lookup2 u d reg with
  | none => rfl
  | some s => rw [hl] at h; simp at h

theorem OnNewEvent_lookup2_none (n : Notifier) (ev : Option HeaderedEvent)
    (roomID : String) (userIDs : List String) (posUpdate : StreamingToken)
    (now : Int) (u d : String) (hwf : n.WF)
    (habs : Notifier.lookup2 u d n.userDeviceStreams = none) :
    Notifier.lookup2 u d
      (n.OnNewEvent ev roomID userIDs posUpdate now).state.userDeviceStreams =
        none := by
  have h1 : Notifier.lookup2 u d
      (advanceSweep n posUpdate now).userDeviceStreams = none :=
    advanceSweep_lookup2_none n posUpdate now u d hwf habs
  cases ev with
  | some e =>
    rw [OnNewEvent_some]
    dsimp only
    obtain ⟨ru, hru⟩ := applyMembership_frame (advanceSweep n posUpdate now) e
      ((advanceSweep n posUpdate now).joinedUsers e.roomID)
    apply lookup2_map_sid_none
    rw [wakeupUsers_sidAt, hru]
    show (Notifier.lookup2 u d
      (advanceSweep n posUpdate now).userDeviceStreams).map _ = none
    rw [h1]
    rfl
  | none =>
    by_cases hr : roomID ≠ ""
    · rw [OnNewEvent_room n roomID userIDs posUpdate now hr]
      dsimp only
      apply lookup2_map_sid_none
      rw [wakeupUsers_sidAt, h1]
      rfl
    · rw [not_not] at hr
      subst hr
      by_cases h2 : userIDs.length > 0
      · rw [OnNewEvent_userIDs n userIDs posUpdate now h2]
        dsimp only
        apply lookup2_map_sid_none
        rw [wakeupUsers_sidAt, h1]
        rfl
      · have h3 : userIDs = [] := by
          cases userIDs with
          | nil => rfl
          | cons a t => exact absurd (by simp) h2
        subst h3
        rw [OnNewEvent_warn]
        exact h1

/-! ### Concrete states for the witnesses -/

/-- A sample stream (identity tag 0) of user `@u1:x`, device `d1`. -/
def sampleStream : UserDeviceStream := ⟨0, "@u1:x", "d1", ⟨0, 0, 0⟩, 0, 0⟩

/-- A second sample stream (identity tag 1) of user `@u1:x`, device `d2`. -/
def sampleStream2 : UserDeviceStream := ⟨1, "@u1:x", "d2", ⟨0, 0, 0⟩, 0, 0⟩

/-- A sample notifier: room `!r:x` has joined user `@u1:x`, who has device
streams `d1` and `d2`; the GC last ran at instant 0. -/
def sampleNotifier : Notifier :=
  ⟨[("!r:x", ["@u1:x"])], ⟨0, 0, 0⟩,
   [("@u1:x", [("d1", sampleStream), ("d2", sampleStream2)])], 0, 2⟩

/-- A notifier whose only stream has been idle since instant 0, with the GC
last run at instant 0, so that a call at instant 400 sweeps it away. -/
def staleNotifier : Notifier :=
  ⟨[], ⟨0, 0, 0⟩, [("@u1:x", [("d1", sampleStream)])], 0, 1⟩

/-- A membership event whose `Membership()` call fails to parse. -/
def badMemberEvent : HeaderedEvent :=
  ⟨"!r:x", "$e1:x", "m.room.member", some "@t:x", none⟩

/-- An invite membership event for `@t:x` in room `!r:x`. -/
def inviteEvent : HeaderedEvent :=
  ⟨"!r:x", "$e2:x", "m.room.member", some "@t:x", some "invite"⟩

/-! ### The claims -/

/-- C1: for every sequence of calls to `OnNewEvent`, `OnNewSendToDevice` and
`OnNewKeyChange` (with arbitrary `posUpdate` tokens), the token returned by
`CurrentPosition` is non-decreasing in every dimension: after each ingress
call, each dimension of the current token is at least its value before the
call. -/
theorem claim_C1_token_monotone (n : Notifier) (calls : List IngressCall)
    (c : IngressCall) :
    StreamingToken.dimLE (runCalls n calls).CurrentPosition
      (runCalls n (calls ++ [c])).CurrentPosition := by
  have h : runCalls n (calls ++ [c]) = applyCall (runCalls n calls) c := by
    unfold runCalls
    rw [List.foldl_append]
    rfl
  rw [h]
  show StreamingToken.dimLE (runCalls n calls).currPos
    (applyCall (runCalls n calls) c).currPos
  rw [applyCall_currPos]
  exact dimLE_WithUpdates _ _

/-- C2: in each ingress operation, the current token is first advanced to the
merge of the old current token with `posUpdate`, and every broadcast issued
by that call carries exactly this merged new current token — the state
committed by the call and every wake in its trace agree on the merged
token. -/
theorem claim_C2_wakes_carry_merged_token (n : Notifier)
    (ev : Option HeaderedEvent) (roomID : String) (userIDs : List String)
    (userID wakeUserID keyChangeUserID : String) (deviceIDs : List String)
    (posUpdate : StreamingToken) (now : Int) :
    ((n.OnNewEvent ev roomID userIDs posUpdate now).state.CurrentPosition =
        n.currPos.WithUpdates posUpdate ∧
      ∀ w ∈ (n.OnNewEvent ev roomID userIDs posUpdate now).wakes,
        w.pos = n.currPos.WithUpdates posUpdate) ∧
    ((n.OnNewSendToDevice userID deviceIDs posUpdate now).1.CurrentPosition =
        n.currPos.WithUpdates posUpdate ∧
      ∀ w ∈ (n.OnNewSendToDevice userID deviceIDs posUpdate now).2,
        w.pos = n.currPos.WithUpdates posUpdate) ∧
    ((n.OnNewKeyChange posUpdate wakeUserID keyChangeUserID
        now).1.CurrentPosition = n.currPos.WithUpdates posUpdate ∧
      ∀ w ∈ (n.OnNewKeyChange posUpdate wakeUserID keyChangeUserID now).2,
        w.pos = n.currPos.WithUpdates posUpdate) := by
  refine ⟨⟨OnNewEvent_state_currPos n ev roomID userIDs posUpdate now,
           OnNewEvent_wakes_pos n ev roomID userIDs posUpdate now⟩,
          ⟨?_, ?_⟩, ⟨?_, ?_⟩⟩
  · exact applyCall_currPos n
      (.newSendToDevice userID deviceIDs posUpdate now)
  · intro w hw
    rw [OnNewSendToDevice_eq] at hw
    exact (wakeupUserDevice_wakes now _ userID deviceIDs _ w hw).2.2.1
  · exact applyCall_currPos n
      (.newKeyChange posUpdate wakeUserID keyChangeUserID now)
  · intro w hw
    rw [OnNewKeyChange_eq] at hw
    exact wakeupUsers_wakes_pos now _ [wakeUserID] _ w hw

/-- Witness for C2 at a concrete input: the send-to-device wake of
`(@u1:x, d1)` carries the merged token. -/
theorem claim_C2_witness :
    Wake.mk "@u1:x" "d1" 0 ⟨0, 9, 0⟩ ∈
        (sampleNotifier.OnNewSendToDevice "@u1:x" ["d1"] ⟨0, 9, 0⟩ 0).2 ∧
    (Wake.mk "@u1:x" "d1" 0 ⟨0, 9, 0⟩).pos =
      sampleNotifier.currPos.WithUpdates ⟨0, 9, 0⟩ :=
  ⟨by decide,
   (claim_C2_wakes_carry_merged_token sampleNotifier none "" [] "@u1:x" "w"
       "k" ["d1"] ⟨0, 9, 0⟩ 0).2.1.2 _ (by decide)⟩

/-- C5 (counterexample): calling `OnNewEvent` with nil event, empty room ID
and empty user list does change the notifier state: at this concrete input
the current token advances to the merge and the GC sweep empties the stream
registry, so the state is not the same after the call. -/
theorem claim_C5_counterexample :
    (staleNotifier.OnNewEvent none "" [] ⟨10, 0, 0⟩ 400).state.currPos ≠
        staleNotifier.currPos ∧
    (staleNotifier.OnNewEvent none "" [] ⟨10, 0, 0⟩
        400).state.userDeviceStreams ≠ staleNotifier.userDeviceStreams ∧
    (staleNotifier.OnNewEvent none "" [] ⟨10, 0, 0⟩ 400).warned = true := by
  decide

/-- C5 (amended): when `OnNewEvent` is called with a nil event, empty room ID
and empty user list, the warning branch is taken and no stream is woken; the
membership index is unchanged, and the only state change is the one every
ingress performs before dispatch: the current token becomes the merge with
`posUpdate` and the opportunistic GC sweep runs. -/
theorem claim_C5_amended (n : Notifier) (posUpdate : StreamingToken)
    (now : Int) :
    (n.OnNewEvent none "" [] posUpdate now).warned = true ∧
    (n.OnNewEvent none "" [] posUpdate now).wakes = [] ∧
    (n.OnNewEvent none "" [] posUpdate now).state.roomIDToJoinedUsers =
      n.roomIDToJoinedUsers ∧
    (n.OnNewEvent none "" [] posUpdate now).state.currPos =
      n.currPos.WithUpdates posUpdate ∧
    (n.OnNewEvent none "" [] posUpdate now).state =
      advanceSweep n posUpdate now := by
  rw [OnNewEvent_warn]
  exact ⟨rfl, rfl, (advanceSweep_proj n posUpdate now).2.1,
    (advanceSweep_proj n posUpdate now).1, rfl⟩

/-- C10: the producer ingress operations never add an entry to the
device-stream registry: a `(u, d)` pair absent from the registry before an
ingress call is still absent after it, for all three ingress operations. -/
theorem claim_C10_ingress_no_creation (n : Notifier)
    (ev : Option HeaderedEvent) (roomID : String) (userIDs : List String)
    (userID wakeUserID keyChangeUserID : String) (deviceIDs : List String)
    (posUpdate : StreamingToken) (now : Int) (u d : String) (hwf : n.WF)
    (habs : Notifier.lookup2 u d n.userDeviceStreams = none) :
    Notifier.lookup2 u d
        (n.OnNewEvent ev roomID userIDs posUpdate
          now).state.userDeviceStreams = none ∧
    Notifier.lookup2 u d
        (n.OnNewSendToDevice userID deviceIDs posUpdate
          now).1.userDeviceStreams = none ∧
    Notifier.lookup2 u d
        (n.OnNewKeyChange posUpdate wakeUserID keyChangeUserID
          now).1.userDeviceStreams = none := by
  refine ⟨OnNewEvent_lookup2_none n ev roomID userIDs posUpdate now u d hwf
    habs, ?_, ?_⟩
  · rw [OnNewSendToDevice_eq]
    apply lookup2_map_sid_none
    rw [wakeupUserDevice_sidAt]
    show (Notifier.lookup2 u d n.userDeviceStreams).map _ = none
    rw [habs]
    rfl
  · rw [OnNewKeyChange_eq]
    apply lookup2_map_sid_none
    rw [wakeupUsers_sidAt]
    show (Notifier.lookup2 u d n.userDeviceStreams).map _ = none
    rw [habs]
    rfl

/-- Witness for C10 at a concrete input: waking a user with no registered
stream leaves the registry without an entry for that user. -/
theorem claim_C10_witness :
    sampleNotifier.WF ∧
    Notifier.lookup2 "@u2:x" "d1" sampleNotifier.userDeviceStreams = none ∧
    Notifier.lookup2 "@u2:x" "d1"
      (sampleNotifier.OnNewSendToDevice "@u2:x" ["d1"] ⟨0, 9, 0⟩
        0).1.userDeviceStreams = none :=
  ⟨by decide, by decide,
   (claim_C10_ingress_no_creation sampleNotifier none "" [] "@u2:x" "w" "k"
      ["d1"] ⟨0, 9, 0⟩ 0 "@u2:x" "d1" (by decide) (by decide)).2.1⟩

/-- C4: for every membership event processed by `OnNewEvent` with a parseable
membership and non-nil state key, the membership index for the event's room
reflects the transition after the call (invite: index unchanged; join: target
present; leave/ban: target absent), and for invite and join the target user
is appended to the recipient list while for leave and ban it is not. -/
theorem claim_C4_membership_transitions (n : Notifier) (e : HeaderedEvent)
    (roomID : String) (userIDs : List String) (posUpdate : StreamingToken)
    (now : Int) (t m : String) (htype : e.eventType = "m.room.member")
    (hkey : e.stateKey = some t) (hmem : e.membership = some m) :
    (m = "invite" →
      (n.OnNewEvent (some e) roomID userIDs posUpdate
        now).state.roomIDToJoinedUsers = n.roomIDToJoinedUsers ∧
      (Notifier.applyMembership (advanceSweep n posUpdate now) e
        ((advanceSweep n posUpdate now).joinedUsers e.roomID)).1 =
        (advanceSweep n posUpdate now).joinedUsers e.roomID ++ [t]) ∧
    (m = "join" →
      t ∈ (n.OnNewEvent (some e) roomID userIDs posUpdate
        now).state.joinedUsers e.roomID ∧
      (Notifier.applyMembership (advanceSweep n posUpdate now) e
        ((advanceSweep n posUpdate now).joinedUsers e.roomID)).1 =
        (advanceSweep n posUpdate now).joinedUsers e.roomID ++ [t]) ∧
    ((m = "leave" ∨ m = "ban") →
      t ∉ (n.OnNewEvent (some e) roomID userIDs posUpdate
        now).state.joinedUsers e.roomID ∧
      (Notifier.applyMembership (advanceSweep n posUpdate now) e
        ((advanceSweep n posUpdate now).joinedUsers e.roomID)).1 =
        (advanceSweep n posUpdate now).joinedUsers e.roomID) := by
  have hrooms := OnNewEvent_state_rooms n e roomID userIDs posUpdate now
  refine ⟨?_, ?_, ?_⟩
  · intro hm
    subst hm
    rw [applyMembership_invite _ e _ t htype hkey hmem] at hrooms ⊢
    refine ⟨?_, rfl⟩
    rw [hrooms]
    exact (advanceSweep_proj n posUpdate now).2.1
  · intro hm
    subst hm
    rw [applyMembership_join _ e _ t htype hkey hmem] at hrooms ⊢
    refine ⟨?_, rfl⟩
    rw [joinedUsers_congr _
      ((advanceSweep n posUpdate now).addJoinedUser e.roomID t) hrooms]
    exact joinedUsers_add_self _ e.roomID t
  · intro hm
    rw [applyMembership_leaveBan _ e _ t m htype hkey hmem hm] at hrooms ⊢
    refine ⟨?_, rfl⟩
    rw [joinedUsers_congr _
      ((advanceSweep n posUpdate now).removeJoinedUser e.roomID t) hrooms]
    exact joinedUsers_remove_self _ e.roomID t

/-- Witness for C4 at a concrete input: an invite event leaves the membership
index unchanged and appends the invitee to the recipient list. -/
theorem claim_C4_witness :
    inviteEvent.eventType = "m.room.member" ∧
    (sampleNotifier.OnNewEvent (some inviteEvent) "" [] ⟨3, 0, 0⟩
      0).state.roomIDToJoinedUsers = sampleNotifier.roomIDToJoinedUsers ∧
    (Notifier.applyMembership (advanceSweep sampleNotifier ⟨3, 0, 0⟩ 0)
      inviteEvent ((advanceSweep sampleNotifier ⟨3, 0, 0⟩ 0).joinedUsers
        inviteEvent.roomID)).1 =
      (advanceSweep sampleNotifier ⟨3, 0, 0⟩ 0).joinedUsers
        inviteEvent.roomID ++ ["@t:x"] := by
  have h := (claim_C4_membership_transitions sampleNotifier inviteEvent "" []
    ⟨3, 0, 0⟩ 0 "@t:x" "invite" rfl rfl rfl).1 rfl
  exact ⟨rfl, h.1, h.2⟩

/-- C6: when `OnNewEvent` receives a membership event whose membership field
fails to parse, the membership index is left unchanged, and the call still
wakes every registered device stream of the room's pre-existing joined user
set with the new current token. -/
theorem claim_C6_parse_failure (n : Notifier) (e : HeaderedEvent)
    (roomID : String) (userIDs : List String) (posUpdate : StreamingToken)
    (now : Int) (t : String) (hwf : n.WF)
    (htype : e.eventType = "m.room.member") (hkey : e.stateKey = some t)
    (hmem : e.membership = none) :
    (n.OnNewEvent (some e) roomID userIDs posUpdate
      now).state.roomIDToJoinedUsers = n.roomIDToJoinedUsers ∧
    ∀ u d s, u ∈ n.joinedUsers e.roomID →
      Notifier.lookup2 u d
        (advanceSweep n posUpdate now).userDeviceStreams = some s →
      Wake.mk u d s.sid (n.currPos.WithUpdates posUpdate) ∈
        (n.OnNewEvent (some e) roomID userIDs posUpdate now).wakes := by
  have hrooms := OnNewEvent_state_rooms n e roomID userIDs posUpdate now
  rw [applyMembership_parseFail _ e _ t htype hkey hmem] at hrooms
  have hwf1 : (advanceSweep n posUpdate now).WF :=
    advanceSweep_WF n posUpdate now hwf
  constructor
  · rw [hrooms]
    exact (advanceSweep_proj n posUpdate now).2.1
  · intro u d s hu hl
    rw [OnNewEvent_some]
    dsimp only
    rw [applyMembership_parseFail _ e _ t htype hkey hmem]
    rw [wakeupUsers_mem now _ _ _ hwf1]
    refine ⟨?_, rfl, ?_⟩
    · show u ∈ (advanceSweep n posUpdate now).joinedUsers e.roomID
      rw [joinedUsers_congr (advanceSweep n posUpdate now) n
        (advanceSweep_proj n posUpdate now).2.1 e.roomID]
      exact hu
    · show (Notifier.lookup2 u d
        (advanceSweep n posUpdate now).userDeviceStreams).map _ = _
      rw [hl]
      rfl

/-- Witness for C6 at a concrete input: a member event whose membership fails
to parse still wakes the joined user's stream with the merged token. -/
theorem claim_C6_witness :
    sampleNotifier.WF ∧
    Wake.mk "@u1:x" "d1" 0 ⟨2, 0, 0⟩ ∈
      (sampleNotifier.OnNewEvent (some badMemberEvent) "" [] ⟨2, 0, 0⟩
        0).wakes :=
  ⟨by decide,
   (claim_C6_parse_failure sampleNotifier badMemberEvent "" [] ⟨2, 0, 0⟩ 0
      "@t:x" (by decide) rfl rfl rfl).2 "@u1:x" "d1" sampleStream (by decide)
      (by decide)⟩

/-- C7: `OnNewSendToDevice` broadcasts the new current token only to the
existing streams of the listed devices of the given user — every wake in its
trace names that user, a listed device and an already-registered stream, and
carries the merged token — while the registry entry of every other
`(user, device)` pair is unchanged and `CurrentPosition` afterwards reflects
the merged `posUpdate`. -/
theorem claim_C7_send_to_device_narrowness (n : Notifier) (userID : String)
    (deviceIDs : List String) (posUpdate : StreamingToken) (now : Int) :
    (n.OnNewSendToDevice userID deviceIDs posUpdate now).1.CurrentPosition =
      n.currPos.WithUpdates posUpdate ∧
    (∀ w ∈ (n.OnNewSendToDevice userID deviceIDs posUpdate now).2,
      w.userID = userID ∧ w.deviceID ∈ deviceIDs ∧
      w.pos = n.currPos.WithUpdates posUpdate ∧
      streamAt n.userDeviceStreams w) ∧
    (∀ u d, u ≠ userID ∨ d ∉ deviceIDs →
      Notifier.lookup2 u d
        (n.OnNewSendToDevice userID deviceIDs posUpdate
          now).1.userDeviceStreams =
      Notifier.lookup2 u d n.userDeviceStreams) := by
  refine ⟨applyCall_currPos n
    (.newSendToDevice userID deviceIDs posUpdate now), ?_, ?_⟩
  · intro w hw
    rw [OnNewSendToDevice_eq] at hw
    exact wakeupUserDevice_wakes now _ userID deviceIDs
      { n with currPos := n.currPos.WithUpdates posUpdate } w hw
  · intro u d hne
    rw [OnNewSendToDevice_eq]
    exact wakeupUserDevice_frame now _ userID deviceIDs
      { n with currPos := n.currPos.WithUpdates posUpdate } u d hne

/-- Witness for C7 at a concrete input: after waking only device `d2` of
`@u1:x`, the stream of `d1` is unchanged in the registry. -/
theorem claim_C7_witness :
    ((1 : Nat) ≠ 2 ∨ ("d1" : String) ∉ (["d2"] : List String)) ∧
    Notifier.lookup2 "@u1:x" "d1"
      (sampleNotifier.OnNewSendToDevice "@u1:x" ["d2"] ⟨0, 9, 0⟩
        0).1.userDeviceStreams =
      Notifier.lookup2 "@u1:x" "d1" sampleNotifier.userDeviceStreams :=
  ⟨by decide,
   (claim_C7_send_to_device_narrowness sampleNotifier "@u1:x" ["d2"]
      ⟨0, 9, 0⟩ 0).2.2 "@u1:x" "d1" (Or.inr (by decide))⟩

/-- The shape of every wake a dispatch with recipient list `us` produces on
state `st`: the wake belongs to a recipient, carries the merged token `tok`,
and names the stream registered for that recipient and device. -/
def wakeSpec (st : Notifier) (us : List String) (tok : StreamingToken)
    (w : Wake) : Prop :=
  w.userID ∈ us ∧ w.pos = tok ∧ streamAt st.userDeviceStreams w

/-- C3: `OnNewEvent` computes its recipients in strict priority order: with a
non-nil event the wakes are exactly those of the joined users of the event's
room (with membership adjustments) — the `roomID` and `userIDs` arguments are
ignored; with a nil event and non-empty `roomID`, the joined users of that
room; with both empty and a non-empty `userIDs`, exactly `userIDs`; and with
all three empty, the warning branch is taken and no stream is woken. -/
theorem claim_C3_recipient_priority (n : Notifier) (ev : Option HeaderedEvent)
    (roomID : String) (userIDs : List String) (posUpdate : StreamingToken)
    (now : Int) (hwf : n.WF) :
    (∀ e, ev = some e →
      (n.OnNewEvent ev roomID userIDs posUpdate now).warned = false ∧
      ∀ w, w ∈ (n.OnNewEvent ev roomID userIDs posUpdate now).wakes ↔
        wakeSpec (advanceSweep n posUpdate now)
          (Notifier.applyMembership (advanceSweep n posUpdate now) e
            ((advanceSweep n posUpdate now).joinedUsers e.roomID)).1
          (n.currPos.WithUpdates posUpdate) w) ∧
    (ev = none → roomID ≠ "" →
      (n.OnNewEvent ev roomID userIDs posUpdate now).warned = false ∧
      ∀ w, w ∈ (n.OnNewEvent ev roomID userIDs posUpdate now).wakes ↔
        wakeSpec (advanceSweep n posUpdate now)
          ((advanceSweep n posUpdate now).joinedUsers roomID)
          (n.currPos.WithUpdates posUpdate) w) ∧
    (ev = none → roomID = "" → userIDs ≠ [] →
      (n.OnNewEvent ev roomID userIDs posUpdate now).warned = false ∧
      ∀ w, w ∈ (n.OnNewEvent ev roomID userIDs posUpdate now).wakes ↔
        wakeSpec (advanceSweep n posUpdate now) userIDs
          (n.currPos.WithUpdates posUpdate) w) ∧
    (ev = none → roomID = "" → userIDs = [] →
      (n.OnNewEvent ev roomID userIDs posUpdate now).warned = true ∧
      (n.OnNewEvent ev roomID userIDs posUpdate now).wakes = []) := by
  have hwf1 : (advanceSweep n posUpdate now).WF :=
    advanceSweep_WF n posUpdate now hwf
  refine ⟨?_, ?_, ?_, ?_⟩
  · intro e he
    subst he
    rw [OnNewEvent_some]
    dsimp only
    obtain ⟨ru, hru⟩ := applyMembership_frame (advanceSweep n posUpdate now)
      e ((advanceSweep n posUpdate now).joinedUsers e.roomID)
    have hwf2 : regWF (Notifier.applyMembership (advanceSweep n posUpdate now)
        e ((advanceSweep n posUpdate now).joinedUsers
          e.roomID)).2.userDeviceStreams := by
      rw [hru]
      exact hwf1
    refine ⟨rfl, fun w => ?_⟩
    rw [wakeupUsers_mem now _ _ _ hwf2 w]
    unfold wakeSpec
    rw [hru]
  · intro he hr
    subst he
    rw [OnNewEvent_room n roomID userIDs posUpdate now hr]
    dsimp only
    refine ⟨rfl, fun w => ?_⟩
    rw [wakeupUsers_mem now _ _ _ hwf1 w]
    unfold wakeSpec
    exact Iff.rfl
  · intro he hr hu
    subst he
    subst hr
    have hlen : userIDs.length > 0 := List.length_pos.mpr hu
    rw [OnNewEvent_userIDs n userIDs posUpdate now hlen]
    dsimp only
    refine ⟨rfl, fun w => ?_⟩
    rw [wakeupUsers_mem now _ _ _ hwf1 w]
    unfold wakeSpec
    exact Iff.rfl
  · intro he hr hu
    subst he
    subst hr
    subst hu
    rw [OnNewEvent_warn]
    exact ⟨rfl, rfl⟩

/-- Witness for C3 at a concrete input: with nil event, empty room and empty
user list the warning branch fires and no stream is woken. -/
theorem claim_C3_witness :
    sampleNotifier.WF ∧
    (sampleNotifier.OnNewEvent none "" [] ⟨2, 0, 0⟩ 0).warned = true ∧
    (sampleNotifier.OnNewEvent none "" [] ⟨2, 0, 0⟩ 0).wakes = [] :=
  ⟨by decide,
   (claim_C3_recipient_priority sampleNotifier none "" [] ⟨2, 0, 0⟩ 0
      (by decide)).2.2.2 rfl rfl rfl⟩

/-- C8: the GC sweep runs at most once per one-minute wall interval — a call
within one minute of `lastCleanUpTime` returns the state unchanged — and when
a sweep does run it records the sweep time, keeps exactly the streams whose
`timeOfLastNonEmpty` is not older than five minutes before `now` (removing
the stale ones), and removes a user's entry when that user's device table
becomes empty. -/
theorem claim_C8_gc_sweep (n : Notifier) (now : Int) (hwf : n.WF) :
    (n.lastCleanUpTime + 60 > now → n.removeEmptyUserStreams now = n) ∧
    (¬ n.lastCleanUpTime + 60 > now →
      (n.removeEmptyUserStreams now).lastCleanUpTime = now ∧
      (∀ u d, Notifier.lookup2 u d
          (n.removeEmptyUserStreams now).userDeviceStreams =
        (Notifier.lookup2 u d n.userDeviceStreams).bind fun s =>
          if s.timeOfLastNonEmpty < now - 300 then none else some s) ∧
      (∀ u tbl, alistLookup u n.userDeviceStreams = some tbl → tbl ≠ [] →
        (tbl.filter fun q =>
          decide (¬ q.2.timeOfLastNonEmpty < now - 300)) = [] →
        alistLookup u (n.removeEmptyUserStreams now).userDeviceStreams =
          none)) := by
  refine ⟨removeEmptyUserStreams_noop n now, fun h => ⟨?_, ?_, ?_⟩⟩
  · unfold Notifier.removeEmptyUserStreams
    rw [if_neg h]
  · exact removeEmptyUserStreams_lookup2 n now hwf h
  · intro u tbl htbl hne hfil
    rw [removeEmptyUserStreams_userTbl n now hwf h u, htbl]
    simp only [Option.some_bind]
    unfold Notifier.sweepUserEntry
    dsimp only
    rw [hfil]
    have h1 : ¬ tbl.isEmpty = true := by
      cases tbl with
      | nil => exact absurd rfl hne
      | cons a t => simp
    rw [if_pos ⟨rfl, h1⟩]
    rfl

/-- Witness for C8 at a concrete input: a sweep at instant 400 over a stream
idle since instant 0 evicts the stream and removes the emptied user. -/
theorem claim_C8_witness :
    staleNotifier.WF ∧ ¬ staleNotifier.lastCleanUpTime + 60 > 400 ∧
    alistLookup "@u1:x"
      (staleNotifier.removeEmptyUserStreams 400).userDeviceStreams = none :=
  ⟨by decide, by decide,
   ((claim_C8_gc_sweep staleNotifier 400 (by decide)).2 (by decide)).2.2
     "@u1:x" [("d1", sampleStream)] (by decide) (by decide) (by decide)⟩

/-- C9: well-formedness (at most one stream per `(userID, deviceID)` pair) is
preserved by every ingress call and by `GetListener`; `GetListener` returns a
listener bound to the stream registered at its coordinates; a second
`GetListener` for the same pair with no intervening GC sweep returns the
identical stream and changes nothing; and no fresh stream is created when one
already exists for the pair. -/
theorem claim_C9_stream_uniqueness (n : Notifier) (now now2 : Int)
    (u d : String) (c : IngressCall) (hwf : n.WF) :
    ((applyCall n c).WF ∧ (n.GetListener u d now).2.WF) ∧
    (∃ s, (n.GetListener u d now).1 = some s ∧
      Notifier.lookup2 u d (n.GetListener u d now).2.userDeviceStreams =
        some s) ∧
    (now2 < (n.GetListener u d now).2.lastCleanUpTime + 60 →
      (n.GetListener u d now).2.GetListener u d now2 =
        ((n.GetListener u d now).1, (n.GetListener u d now).2)) ∧
    (∀ s, Notifier.lookup2 u d
        (n.removeEmptyUserStreams now).userDeviceStreams = some s →
      n.GetListener u d now = (some s, n.removeEmptyUserStreams now)) := by
  refine ⟨⟨?_, GetListener_WF n u d now hwf⟩, GetListener_found n u d now,
    ?_, ?_⟩
  · cases c with
    | newEvent ev roomID userIDs p cnow =>
      exact OnNewEvent_WF n ev roomID userIDs p cnow hwf
    | newSendToDevice uu ds p cnow =>
      exact OnNewSendToDevice_WF n uu ds p cnow hwf
    | newKeyChange p wu ku cnow =>
      exact OnNewKeyChange_WF n p wu ku cnow hwf
  · intro hGc
    obtain ⟨s1, hs1, hl1⟩ := GetListener_found n u d now
    have h2 : (n.GetListener u d now).2.removeEmptyUserStreams now2 =
        (n.GetListener u d now).2 :=
      removeEmptyUserStreams_noop _ now2 hGc
    have h3 := GetListener_existing ((n.GetListener u d now).2) u d now2 s1
      (by rw [h2]; exact hl1)
    rw [h3, h2, hs1]
  · intro s hs
    exact GetListener_existing n u d now s hs

/-- Witness for C9 at a concrete input: a repeated `GetListener` for
`(@u1:x, d1)` within the GC interval returns the identical stream and leaves
the state unchanged. -/
theorem claim_C9_witness :
    sampleNotifier.WF ∧
    (0 : Int) <
      (sampleNotifier.GetListener "@u1:x" "d1" 0).2.lastCleanUpTime + 60 ∧
    (sampleNotifier.GetListener "@u1:x" "d1" 0).2.GetListener "@u1:x" "d1"
        0 =
      ((sampleNotifier.GetListener "@u1:x" "d1" 0).1,
       (sampleNotifier.GetListener "@u1:x" "d1" 0).2) :=
  ⟨by decide, by decide,
   (claim_C9_stream_uniqueness sampleNotifier 0 0 "@u1:x" "d1"
      (.newKeyChange ⟨0, 0, 0⟩ "w" "k" 0) (by decide)).2.2.1 (by decide)⟩
